import Mathlib

/-!
Verification of the jdmtool device-and-media programming pipeline.

This file gives a shallow embedding, in Lean, of the pure algorithmic core of
the repository: the table-driven checksum engines (`src/jdmtool/checksum.py`),
the Skybound sector translation (`src/jdmtool/data_card/skybound.py`), the TAWS
block layout utilities (`taws_utils.py`), the DBF record codec
(`src/jdmtool/dbf.py`), the ChartView `charts.bin` merger
(`src/jdmtool/chartview.py`), the feature-unlock slot writer
(`src/jdmtool/featunlk.py`) and the Avidyne SFX emitter
(`src/jdmtool/avidyne.py`).

Conventions used throughout:
* Python `bytes` values are modelled as `List Nat` with every element < 256.
* Python unbounded integers are `Nat` (or `Int` where the source can go
  negative); masking with `0xFFFFFFFF` etc. is written out exactly where the
  source writes it.
* Python list indexing `table[i]` is modelled as `List.getD t i 0`; every
  theorem below only exercises it at indices that are in range (where Python
  would not raise `IndexError`).
* `int.to_bytes(n, ...)` is modelled by a total function producing the `n`
  low-order bytes; the source raises `OverflowError` for values that do not
  fit, and the theorems either prove or assume the fit.
* File writes (`seek`/`write`) are modelled by pure functions on the byte list
  of the file.
-/

namespace Checksum

/-- `CRC32Q_POLYNOMIAL` from `checksum.py`. -/
def CRC32Q_POLYNOMIAL : Nat := 0x814141AB

/-- `SFX_POLYNOMIAL` from `checksum.py`. -/
def SFX_POLYNOMIAL : Nat := 0x04C11DB7

/-- `FEAT_UNLK_POLYNOMIAL_1` from `checksum.py`. -/
def FEAT_UNLK_POLYNOMIAL_1 : Nat := 0x076dc419

/-- `FEAT_UNLK_POLYNOMIAL_2` from `checksum.py`. -/
def FEAT_UNLK_POLYNOMIAL_2 : Nat := 0x77073096

/-- One iteration of the inner loop of `_create_lookup_table`:
shift left, and fold in the polynomial when bit 31 was set before the shift. -/
def lookupStep (polynomial value : Nat) : Nat :=
  if value &&& (1 <<< 31) != 0 then
    ((value <<< 1) &&& 0xFFFFFFFF) ^^^ polynomial
  else
    value <<< 1

/-- The entry of the lookup table at `index`: eight `lookupStep` iterations
starting from `index << 24` (the body of the `for index` loop of
`_create_lookup_table`). -/
def lookupEntry (polynomial index : Nat) : Nat :=
  lookupStep polynomial (lookupStep polynomial (lookupStep polynomial
    (lookupStep polynomial (lookupStep polynomial (lookupStep polynomial
      (lookupStep polynomial (lookupStep polynomial (index <<< 24))))))))

/-- `_create_lookup_table(polynomial, length)` from `checksum.py`. -/
def create_lookup_table (polynomial length : Nat) : List Nat :=
  (List.range length).map (lookupEntry polynomial)

/-- `_crc32q_lookup_table` from `checksum.py`. -/
def crc32q_lookup_table : List Nat := create_lookup_table CRC32Q_POLYNOMIAL 256

/-- `_feat_unlk_lookup_table` from `checksum.py`: the elementwise XOR of a
64-entry table for polynomial 1 with a 4-entry table for polynomial 2
(`[x ^ y for x in outer for y in inner]`). -/
def feat_unlk_lookup_table : List Nat :=
  ((create_lookup_table FEAT_UNLK_POLYNOMIAL_1 64).map (fun x =>
    (create_lookup_table FEAT_UNLK_POLYNOMIAL_2 4).map (fun y => x ^^^ y))).flatten

/-- `crc32q_checksum(data, value)` from `checksum.py`:
`value = table[b ^ (value >> 24)] ^ ((value & 0x00FFFFFF) << 8)` per byte.
The default seed in the source is 0. -/
def crc32q_checksum : List Nat → Nat → Nat
  | [], value => value
  | b :: rest, value =>
    crc32q_checksum rest
      (crc32q_lookup_table.getD (b ^^^ (value >>> 24)) 0 ^^^
        ((value &&& 0x00FFFFFF) <<< 8))

/-- `feat_unlk_checksum(data, value)` from `checksum.py`:
`value = table[b ^ (value & 0xFF)] ^ (value >> 8)` per byte.
The default seed in the source is `0xFFFFFFFF`. -/
def feat_unlk_checksum : List Nat → Nat → Nat
  | [], value => value
  | b :: rest, value =>
    feat_unlk_checksum rest
      (feat_unlk_lookup_table.getD (b ^^^ (value &&& 0xFF)) 0 ^^^ (value >>> 8))

/-- `sfx_checksum(data, value)` from `checksum.py`:
`value = b ^ ((value & 0x00FFFFFF) << 8) ^ table[value >> 24]` per byte. -/
def sfx_lookup_table : List Nat := create_lookup_table SFX_POLYNOMIAL 256

/-- `sfx_checksum(data, value)` from `checksum.py`. The default seed is 0. -/
def sfx_checksum : List Nat → Nat → Nat
  | [], value => value
  | b :: rest, value =>
    sfx_checksum rest
      (b ^^^ ((value &&& 0x00FFFFFF) <<< 8) ^^^ (sfx_lookup_table.getD (value >>> 24) 0))

/-- `v.to_bytes(4, 'big')` for `v < 2^32`: big-endian byte list. -/
def toBytesBe4 (v : Nat) : List Nat :=
  [(v >>> 24) &&& 255, (v >>> 16) &&& 255, (v >>> 8) &&& 255, v &&& 255]

/-- `v.to_bytes(4, 'little')` for `v < 2^32`: little-endian byte list. -/
def toBytesLe4 (v : Nat) : List Nat :=
  [v &&& 255, (v >>> 8) &&& 255, (v >>> 16) &&& 255, (v >>> 24) &&& 255]

/-- `v.to_bytes(2, 'little')` for `v < 2^16`. -/
def toBytesLe2 (v : Nat) : List Nat := [v &&& 255, (v >>> 8) &&& 255]

end Checksum

namespace Skybound

/-- `SkyboundDevice.MEMORY_OFFSETS` from `data_card/skybound.py`. -/
def MEMORY_OFFSETS : List Nat := [0x00E0, 0x0160, 0x01A0, 0x01C0]

/-- `SkyboundDevice.translate_sector` from `data_card/skybound.py`, as a
function of the device's `sectors_per_chip` and the logical `sector_id`. -/
def translate_sector (sectors_per_chip sector_id : Nat) : Nat :=
  let offset_id := sector_id / sectors_per_chip
  if sectors_per_chip > 0x20 then
    let offset_for_16mb := 0x200 * (sector_id / 0x20 % 2)
    MEMORY_OFFSETS.getD offset_id 0 + sector_id % 0x20 + offset_for_16mb
  else
    MEMORY_OFFSETS.getD offset_id 0 + sector_id % sectors_per_chip

/-- The sector-translation formula exactly as the specification states it
(offset index plus `0x200 * ((logical_sector / 0x20) mod 2)` for 4 MiB chips,
with no `sector_id % 0x20` term; offset index plus
`logical_sector mod sectors_per_chip` otherwise). Written from the spec's
words, to be compared against `translate_sector` above. -/
def translate_sector_spec (sectors_per_chip sector_id : Nat) : Nat :=
  if sectors_per_chip > 0x20 then
    MEMORY_OFFSETS.getD (sector_id / sectors_per_chip) 0 +
      0x200 * (sector_id / 0x20 % 2)
  else
    MEMORY_OFFSETS.getD (sector_id / sectors_per_chip) 0 +
      sector_id % sectors_per_chip

/-- The sector-translation formula with the 4 MiB-chip case amended to include
the `sector_id % 0x20` term that the source adds. -/
def translate_sector_amended (sectors_per_chip sector_id : Nat) : Nat :=
  if sectors_per_chip > 0x20 then
    MEMORY_OFFSETS.getD (sector_id / sectors_per_chip) 0 +
      sector_id % 0x20 + 0x200 * (sector_id / 0x20 % 2)
  else
    MEMORY_OFFSETS.getD (sector_id / sectors_per_chip) 0 +
      sector_id % sectors_per_chip

/-- The card types of `DataCardType` in `data_card/common.py` (the geometry
fields are not needed by the claims below). -/
inductive DataCardType where
  | NONE
  | NAVDATA
  | TAWS
deriving DecidableEq

/-- `IID_MAP` from `data_card/common.py`:
`(manufacturer_id, chip_id) -> (card_type, sectors_per_chip, description)`. -/
def IID_MAP : List ((Nat × Nat) × (DataCardType × Nat × String)) :=
  [((0x89, 0xa2), (DataCardType.NAVDATA, 0x10, "non-WAAS (white)")),
   ((0x89, 0xa6), (DataCardType.NAVDATA, 0x10, "non-WAAS (white)")),
   ((0x01, 0xad), (DataCardType.NAVDATA, 0x20, "non-WAAS (green)")),
   ((0x89, 0xaa), (DataCardType.NAVDATA, 0x20, "non-WAAS (green)")),
   ((0x01, 0x41), (DataCardType.NAVDATA, 0x40, "WAAS (silver)")),
   ((0x89, 0x7e), (DataCardType.NAVDATA, 0x40, "WAAS (orange)")),
   ((0xec, 0x79), (DataCardType.TAWS, 0x800, "Terrain/Obstacles")),
   ((0xec, 0xda), (DataCardType.TAWS, 0x1000, "Terrain/Obstacles"))]

/-- `SkyboundDevice.select_physical_sector`: raises `ValueError` unless
`0x0000 <= sector_id <= 0xFFFF`, otherwise sends
`b"\x30\x00\x00" + sector_id.to_bytes(2, 'little')`. `none` models the raise. -/
def select_physical_sector (sector_id : Nat) : Option (List Nat) :=
  if sector_id ≤ 0xFFFF then
    some ([0x30, 0x00, 0x00] ++ [sector_id &&& 255, (sector_id >>> 8) &&& 255])
  else
    none

/-- `SkyboundDevice.select_sector`: `select_physical_sector(translate_sector(sector_id))`. -/
def select_sector (sectors_per_chip sector_id : Nat) : Option (List Nat) :=
  select_physical_sector (translate_sector sectors_per_chip sector_id)

end Skybound

namespace Taws

/-- `BLOCK_SIZE_128` from `taws_utils.py`. -/
def BLOCK_SIZE_128 : Nat := 0x200

/-- `FOOTER_SIZE_128` from `taws_utils.py`. -/
def FOOTER_SIZE_128 : Nat := 0x10

/-- `BLOCK_SIZE_256` from `taws_utils.py`. -/
def BLOCK_SIZE_256 : Nat := 0x800

/-- `FOOTER_SIZE_256` from `taws_utils.py`. -/
def FOOTER_SIZE_256 : Nat := 0x40

/-- `_datablock_lookup_table` from `taws_utils.py` (256 nibble values). -/
def datablock_lookup_table : List Nat :=
  [0, 1, 3, 2, 5, 4, 6, 7, 7, 6, 4, 5, 2, 3, 1, 0, 9, 8, 10, 11, 12, 13,
   15, 14, 14, 15, 13, 12, 11, 10, 8, 9, 11, 10, 8, 9, 14, 15, 13, 12, 12, 13, 15, 14,
   9, 8, 10, 11, 2, 3, 1, 0, 7, 6, 4, 5, 5, 4, 6, 7, 0, 1, 3, 2, 13, 12,
   14, 15, 8, 9, 11, 10, 10, 11, 9, 8, 15, 14, 12, 13, 4, 5, 7, 6, 1, 0, 2, 3,
   3, 2, 0, 1, 6, 7, 5, 4, 6, 7, 5, 4, 3, 2, 0, 1, 1, 0, 2, 3, 4, 5,
   7, 6, 15, 14, 12, 13, 10, 11, 9, 8, 8, 9, 11, 10, 13, 12, 14, 15, 15, 14, 12, 13,
   10, 11, 9, 8, 8, 9, 11, 10, 13, 12, 14, 15, 6, 7, 5, 4, 3, 2, 0, 1, 1, 0,
   2, 3, 4, 5, 7, 6, 4, 5, 7, 6, 1, 0, 2, 3, 3, 2, 0, 1, 6, 7, 5, 4,
   13, 12, 14, 15, 8, 9, 11, 10, 10, 11, 9, 8, 15, 14, 12, 13, 2, 3, 1, 0, 7, 6,
   4, 5, 5, 4, 6, 7, 0, 1, 3, 2, 11, 10, 8, 9, 14, 15, 13, 12, 12, 13, 15, 14,
   9, 8, 10, 11, 9, 8, 10, 11, 12, 13, 15, 14, 14, 15, 13, 12, 11, 10, 8, 9, 0, 1,
   3, 2, 5, 4, 6, 7, 7, 6, 4, 5, 2, 3, 1, 0]

/-- The loop body shared by both passes of `datablock_checksum_pagesize512`:
state is `(value, index)`. -/
def datablockStep512 (acc : Nat × Nat) (d : Nat) : Nat × Nat :=
  let t := datablock_lookup_table.getD d 0
  let value := acc.1 ^^^ (t <<< 0x1c)
  let value := if t &&& 1 != 0 then value ^^^ acc.2 else value
  (value, acc.2 + 1)

/-- `datablock_checksum_pagesize512(datablock, footer)` from `taws_utils.py`. -/
def datablock_checksum_pagesize512 (datablock footer : List Nat) : Nat :=
  let s1 := footer.foldl datablockStep512 (0, 0x600)
  let s2 := datablock.foldl datablockStep512 (s1.1, 0xc00)
  let value := s2.1
  let index := value <<< 4
  let value := index ||| (value >>> 0x1c)
  let index :=
    (((index >>> 8) <<< 24) |||
      datablock_lookup_table.getD ((((index >>> 8) ^^^ value) >>> 1) &&& 0xff) 0) &&&
      0xffffff01
  (index ||| (index ^^^ value)) &&& 0xffff

/-- The loop body shared by both passes of `datablock_checksum_pagesize2048`:
state is `(crc, index)`. -/
def datablockStep2048 (acc : Nat × Nat) (d : Nat) : Nat × Nat :=
  let t := datablock_lookup_table.getD d 0
  let crc := acc.1 ^^^ t
  let crc := if t &&& 1 != 0 then crc ^^^ (acc.2 <<< 4) else crc
  (crc, acc.2 + 1)

/-- `datablock_checksum_pagesize2048(datablock, footer)` from `taws_utils.py`. -/
def datablock_checksum_pagesize2048 (datablock footer : List Nat) : Nat :=
  let s1 := footer.foldl datablockStep2048 (0, 0x6000000)
  let s2 := datablock.foldl datablockStep2048 (s1.1, 0xc000000)
  let crc := s2.1
  let index := (crc >>> 0x10) ^^^ crc
  (datablock_lookup_table.getD (((index >>> 9) ^^^ (index >>> 1)) &&& 0xff) 0 &&& 0x1) ^^^ crc

/-- One bit-iteration of the reflected CRC-16 used by
`fastcrc.crc16.mcrf4xx` (polynomial 0x1021 reflected = 0x8408). -/
def crc16Bit (r : Nat) : Nat :=
  if r &&& 1 = 1 then (r >>> 1) ^^^ 0x8408 else r >>> 1

/-- Processing one byte of CRC-16/MCRF4XX: XOR the byte into the register,
then eight `crc16Bit` iterations. -/
def crc16Byte (crc b : Nat) : Nat :=
  crc16Bit (crc16Bit (crc16Bit (crc16Bit (crc16Bit (crc16Bit (crc16Bit
    (crc16Bit (crc ^^^ b))))))))

/-- `crc16_checksum(data, value)` from `taws_utils.py`. The source delegates
to the external `fastcrc.crc16.mcrf4xx` (CRC-16/MCRF4XX: polynomial 0x1021,
reflected, init 0xFFFF, no output XOR); this is the standard bitwise
definition of that CRC, with `value` as the running register. The default
seed in the source is 0xFFFF. -/
def crc16_checksum (data : List Nat) (value : Nat) : Nat :=
  data.foldl crc16Byte value

/-- `int.from_bytes(data, 'little')`. -/
def fromLeBytes (l : List Nat) : Nat :=
  l.foldr (fun b acc => b + 256 * acc) 0

/-- The "block checksum" comparison of `verifyBlockCrc(data, footer)` from
`taws_utils.py`: compare `datablock_checksum_pagesize2048(data, footer[:-4])`
with `footer[-4:]` for 2048-byte pages, otherwise
`datablock_checksum_pagesize512(data, footer[:-2])` with `footer[-2:]`.
A `false` result models the `ValueError` raise. -/
def verifyBlockCrcBlockOk (data footer : List Nat) : Bool :=
  if data.length = BLOCK_SIZE_256 then
    datablock_checksum_pagesize2048 data (footer.take (footer.length - 4)) =
      fromLeBytes (footer.drop (footer.length - 4))
  else
    datablock_checksum_pagesize512 data (footer.take (footer.length - 2)) =
      fromLeBytes (footer.drop (footer.length - 2))

/-- The additional mcrf4xx check of `verifyBlockCrc(data, footer)` for
512-byte pages: `crc16(footer[:-2], crc16(data, 0xFFFF))` must be zero.
Vacuously true for other page sizes. A `false` result models the
`ValueError` raise. -/
def verifyBlockCrcCrc16Ok (data footer : List Nat) : Bool :=
  if data.length = BLOCK_SIZE_128 then
    crc16_checksum (footer.take (footer.length - 2)) (crc16_checksum data 0xFFFF) = 0
  else
    true

/-- `verifyBlockCrc(data, footer)` from `taws_utils.py`: true iff the function
returns without raising `ValueError`. -/
def verifyBlockCrc (data footer : List Nat) : Bool :=
  verifyBlockCrcBlockOk data footer && verifyBlockCrcCrc16Ok data footer

/-- `create_footer(data, current_idx, footer_size)` from `taws_utils.py`:
the 4-byte little-endian index, left-justified with zeros to
`footer_size - 4` bytes; then for 16-byte footers the little-endian
`crc16.mcrf4xx(footer)` (seed 0xFFFF, over the 12 footer bytes built so far)
followed by the little-endian `datablock_checksum_pagesize512(data, footer)`;
for other sizes the little-endian 32-bit
`datablock_checksum_pagesize2048(data, footer)`. -/
def create_footer (data : List Nat) (current_idx footer_size : Nat) : List Nat :=
  let footer := Checksum.toBytesLe4 current_idx ++
    List.replicate ((footer_size - 4) - 4) 0
  if footer_size = FOOTER_SIZE_128 then
    let footer := footer ++ Checksum.toBytesLe2 (crc16_checksum footer 0xFFFF)
    footer ++ Checksum.toBytesLe2 (datablock_checksum_pagesize512 data footer)
  else
    footer ++ Checksum.toBytesLe4 (datablock_checksum_pagesize2048 data footer)

/-- `translate_sector(bad_sectors, sector)` from `taws_utils.py`: walk the
bad-sector list; stop at the first bad sector greater than the running
sector; increment the running sector for every one at or below it. -/
def translate_sector (bad_sectors : List Nat) (sector : Nat) : Nat :=
  match bad_sectors with
  | [] => sector
  | bad_sector :: rest =>
    if bad_sector > sector then sector
    else translate_sector rest (sector + 1)

end Taws


namespace FeatUnlk

/-- `CONTENT1_LEN` from `featunlk.py` (85 bytes). -/
def CONTENT1_LEN : Nat := 0x55

/-- `CONTENT2_LEN` from `featunlk.py` (824 bytes). -/
def CONTENT2_LEN : Nat := 0x338

/-- `SEC_ID_OFFSET` from `featunlk.py`. -/
def SEC_ID_OFFSET : Nat := 191

/-- `MAGIC1` from `featunlk.py`. -/
def MAGIC1 : Nat := 0x1

/-- `MAGIC2` from `featunlk.py`. -/
def MAGIC2 : Nat := 0x7648329A

/-- `MAGIC3` from `featunlk.py`. -/
def MAGIC3 : Nat := 0x6501

/-- `NAVIGATION_PREVIEW_START` from `featunlk.py`. -/
def NAVIGATION_PREVIEW_START : Nat := 129

/-- `NAVIGATION_PREVIEW_END` from `featunlk.py`. -/
def NAVIGATION_PREVIEW_END : Nat := 146

/-- `encode_volume_id(vol_id)` from `featunlk.py`:
`~((vol_id << 31 & 0xFFFFFFFF) | (vol_id >> 1)) & 0xFFFFFFFF`. For a
nonnegative Python int, `~x & 0xFFFFFFFF` is the 32-bit complement
`0xFFFFFFFF ^ (x & 0xFFFFFFFF)`. -/
def encode_volume_id (vol_id : Nat) : Nat :=
  0xFFFFFFFF ^^^ ((((vol_id <<< 31) &&& 0xFFFFFFFF) ||| (vol_id >>> 1)) &&& 0xFFFFFFFF)

/-- `truncate_system_id(system_id)` from `featunlk.py`:
`(system_id & 0xFFFFFFFF) + (system_id >> 32)`. -/
def truncate_system_id (system_id : Nat) : Nat :=
  (system_id &&& 0xFFFFFFFF) + (system_id >>> 32)

/-- The twenty fixed feature slot offsets of the `Feature` enum in
`featunlk.py`, in declaration order (`NAVIGATION = 0` through
`BASEMAP2 = 17347`). -/
def FEATURE_OFFSETS : List Nat :=
  [0, 913, 1826, 2739, 3652, 4565, 5478, 6391, 7304, 8217,
   9130, 10043, 10956, 11869, 12782, 13695, 14608, 15521, 16434, 17347]

/-- The first 81 bytes of content-1 written by `update_feat_unlk`
(everything before the trailing 4-byte CRC-of-self). `isNav` is
`feature == Feature.NAVIGATION`; `bit` is `feature.bit`. The Nat-subtraction
form `security_id + 0x10000 - SEC_ID_OFFSET` agrees with the source's
`security_id - SEC_ID_OFFSET + 0x10000` over nonnegative ids. -/
def content1_body (isNav : Bool) (security_id vol_id checksum bit : Nat)
    (preview : List Nat) : List Nat :=
  let part := Checksum.toBytesLe2 MAGIC1 ++
    Checksum.toBytesLe2 ((security_id + 0x10000 - SEC_ID_OFFSET) &&& 0xFFFF) ++
    Checksum.toBytesLe4 MAGIC2 ++
    Checksum.toBytesLe4 (1 <<< bit) ++
    Checksum.toBytesLe4 0 ++
    Checksum.toBytesLe4 (encode_volume_id vol_id) ++
    (if isNav then Checksum.toBytesLe2 MAGIC3 else []) ++
    Checksum.toBytesLe4 checksum ++
    (if isNav then preview
     else List.replicate (NAVIGATION_PREVIEW_END - NAVIGATION_PREVIEW_START) 0)
  part ++ List.replicate (CONTENT1_LEN - part.length - 4) 0

/-- Content-1 as written by `update_feat_unlk`: the 81-byte body followed by
its own little-endian feat-unlk checksum (`chk1`). -/
def content1 (isNav : Bool) (security_id vol_id checksum bit : Nat)
    (preview : List Nat) : List Nat :=
  let body := content1_body isNav security_id vol_id checksum bit preview
  body ++ Checksum.toBytesLe4 (Checksum.feat_unlk_checksum body 0xFFFFFFFF)

/-- The first 820 bytes of content-2 written by `update_feat_unlk`. -/
def content2_body (system_id : Nat) : List Nat :=
  let part := Checksum.toBytesLe4 0 ++
    Checksum.toBytesLe4 (truncate_system_id system_id)
  part ++ List.replicate (CONTENT2_LEN - part.length - 4) 0

/-- Content-2 as written by `update_feat_unlk`: the 820-byte body followed by
its own little-endian feat-unlk checksum (`chk2`). -/
def content2 (system_id : Nat) : List Nat :=
  let body := content2_body system_id
  body ++ Checksum.toBytesLe4 (Checksum.feat_unlk_checksum body 0xFFFFFFFF)

/-- `chk3` of `update_feat_unlk`: the feat-unlk checksum of
`content1 + content2` with the default seed `0xFFFFFFFF`. -/
def overall_crc (c1 c2 : List Nat) : Nat :=
  Checksum.feat_unlk_checksum (c1 ++ c2) 0xFFFFFFFF

/-- The full 913-byte slot written by `update_feat_unlk` at the feature's
offset: content-1, content-2, and the 4-byte overall CRC. -/
def update_feat_unlk_slot (isNav : Bool)
    (security_id vol_id system_id checksum bit : Nat)
    (preview : List Nat) : List Nat :=
  let c1 := content1 isNav security_id vol_id checksum bit preview
  let c2 := content2 system_id
  c1 ++ c2 ++ Checksum.toBytesLe4 (overall_crc c1 c2)

/-- Writing `data` into a file at byte `offset` (`seek(offset)` then
`write(data)` on a file opened `r+b`): bytes before `offset` are kept (with
zero-fill if the file was shorter), then `data`, then the bytes of the
original file past `offset + len(data)`. -/
def writeAt (file : List Nat) (offset : Nat) (data : List Nat) : List Nat :=
  file.take offset ++ List.replicate (offset - file.length) 0 ++ data ++
    file.drop (offset + data.length)

/-- The effect of `update_feat_unlk` on the bytes of `feat_unlk.dat`:
seek to the feature's offset and write content-1, content-2 and the overall
CRC. -/
def update_feat_unlk (file : List Nat) (offset : Nat) (isNav : Bool)
    (security_id vol_id system_id checksum bit : Nat)
    (preview : List Nat) : List Nat :=
  writeAt file offset
    (update_feat_unlk_slot isNav security_id vol_id system_id checksum bit preview)

end FeatUnlk


namespace Avidyne

/-- `SectionContext` from `avidyne.py`; strings are modelled as their UTF-8
bytes. -/
structure SectionContext where
  header : List Nat
  bitmask : Nat
  conditional_info : Option (List Nat)
  param : List Nat

/-- `SecurityContext` from `avidyne.py`. -/
structure SecurityContext where
  cycle : List Nat
  volume_id : Nat
  remaining_transfers : Nat
  fleet_ids : List (List Nat)

/-- The closed sum of `SFXSection` subclasses from `avidyne.py`. A Copy
section's files are pairs of (full path, basename) byte strings
(`str(path)` and `path.name`). -/
inductive SFXSection where
  | script (ctx : SectionContext) (start_message : List Nat) (security : Bool)
  | copy (ctx : SectionContext) (mode : Nat) (files : List (List Nat × List Nat))
  | execute (ctx : SectionContext) (unknown1 : List Nat) (unknown2 : Nat)
  | persist (ctx : SectionContext) (path key value data_type : List Nat)
      (unknown : Nat)
  | messageBox (ctx : SectionContext) (has_proceed has_cancel : Bool)
      (message : List Nat)

/-- `SECTION_ID` of each section class. -/
def SFXSection.sectionId : SFXSection → Nat
  | .script .. => 0
  | .copy .. => 1
  | .execute .. => 3
  | .persist .. => 6
  | .messageBox .. => 14

/-- The shared `ctx` field of a section. -/
def SFXSection.ctx : SFXSection → SectionContext
  | .script c .. => c
  | .copy c .. => c
  | .execute c .. => c
  | .persist c .. => c
  | .messageBox c .. => c

/-- `write_u32(fd, v)` from `avidyne.py`: `v.to_bytes(4, 'big')`. -/
def write_u32 (v : Nat) : List Nat := Checksum.toBytesBe4 v

/-- `v.to_bytes(1, 'big')` (for `v < 256`). -/
def write_u8 (v : Nat) : List Nat := [v &&& 255]

/-- `write_bytes(fd, data)` from `avidyne.py`: big-endian u32 length prefix
followed by the data. `write_string` is the same on the UTF-8 encoding. -/
def write_bytes (data : List Nat) : List Nat := write_u32 data.length ++ data

/-- `b.to_bytes(1, 'big')` for a Python bool. -/
def boolByte (b : Bool) : List Nat := [if b then 1 else 0]

/-- The type-specific body each section's `run` writes after the shared
metadata. `zf` models `zipfile.read` (full path to contents) and `compress`
models `zlib.compress`. -/
def SFXSection.runBody (zf compress : List Nat → List Nat)
    (sctx : SecurityContext) : SFXSection → List Nat
  | .script _ start_message security =>
    write_bytes start_message ++ boolByte security ++
      (if security then
        [0x03] ++ write_bytes sctx.cycle ++ write_u32 sctx.volume_id ++
          write_u32 sctx.remaining_transfers ++
          List.replicate (32 * sctx.remaining_transfers) 0xAA
      else [])
  | .copy _ mode files =>
    write_u32 files.length ++ write_u32 mode ++
      (files.map (fun f =>
        let contents := zf f.1
        let compressed := compress contents
        write_bytes f.2 ++ write_u32 3 ++ write_u32 contents.length ++
          write_u32 compressed.length ++ compressed ++
          write_u32 (Checksum.sfx_checksum contents 0))).flatten
  | .execute _ unknown1 unknown2 => write_bytes unknown1 ++ write_u8 unknown2
  | .persist _ path key value data_type unknown =>
    write_bytes path ++ write_bytes key ++ write_bytes value ++
      write_u32 unknown ++ write_bytes data_type
  | .messageBox _ has_proceed has_cancel message =>
    boolByte has_proceed ++ boolByte has_cancel ++ write_bytes message

/-- `"TAIL_NUM"` as bytes. -/
def TAIL_NUM : List Nat := [84, 65, 73, 76, 95, 78, 85, 77]

/-- Python `str.split(sep)` for a one-byte separator (never returns an empty
list). -/
def splitOnByte (sep : Nat) : List Nat → List (List Nat)
  | [] => [[]]
  | b :: rest =>
    match splitOnByte sep rest with
    | [] => [[b]]
    | p :: ps => if b = sep then [] :: p :: ps else (b :: p) :: ps

/-- The fleet-id substitution in `SFXFile.run`: when the fleet queue is
nonempty and the conditional info's second tab-separated field is `TAIL_NUM`,
replace the fourth field with the popped head of the queue. (`parts[3] = ...`
raises `IndexError` in the source when there are fewer than four fields;
`List.set` is a no-op there, which the emitted scripts never exercise.) -/
def substFleet (fleet : List (List Nat)) (ci : List Nat) :
    List Nat × List (List Nat) :=
  match fleet with
  | [] => (ci, [])
  | f :: rest =>
    let parts := splitOnByte 9 ci
    if parts.getD 1 [] = TAIL_NUM then
      (List.intercalate [9] (parts.set 3 f), rest)
    else (ci, f :: rest)

/-- The bytes one section contributes to the output of `SFXFile.run`:
the leading `u32 0`, the header (prefixed by `"<cycle> "` for the first
section), on 3.x the bitmask / conditional flag / conditional info (with
fleet substitution), then the param, the 1-byte section type and the body.
Returns the remaining fleet queue. -/
def emit_section (version309 : Bool) (zf compress : List Nat → List Nat)
    (sctx : SecurityContext) (isFirst : Bool) (fleet : List (List Nat))
    (s : SFXSection) : List Nat × List (List Nat) :=
  let headerBytes :=
    if isFirst then sctx.cycle ++ [32] ++ s.ctx.header else s.ctx.header
  let pre := write_u32 0 ++ write_bytes headerBytes
  if version309 then
    let condFlag := write_u32 (if s.ctx.conditional_info.isSome then 1 else 0)
    match s.ctx.conditional_info with
    | some ci =>
      if ci ≠ [] then
        let r := substFleet fleet ci
        (pre ++ write_u32 s.ctx.bitmask ++ condFlag ++ write_bytes r.1 ++
          write_bytes s.ctx.param ++ write_u8 s.sectionId ++
          s.runBody zf compress sctx, r.2)
      else
        (pre ++ write_u32 s.ctx.bitmask ++ condFlag ++
          write_bytes s.ctx.param ++ write_u8 s.sectionId ++
          s.runBody zf compress sctx, fleet)
    | none =>
      (pre ++ write_u32 s.ctx.bitmask ++ condFlag ++
        write_bytes s.ctx.param ++ write_u8 s.sectionId ++
        s.runBody zf compress sctx, fleet)
  else
    (pre ++ write_bytes s.ctx.param ++ write_u8 s.sectionId ++
      s.runBody zf compress sctx, fleet)

/-- The section loop of `SFXFile.run`, threading the fleet queue. -/
def run_sections (version309 : Bool) (zf compress : List Nat → List Nat)
    (sctx : SecurityContext) :
    List SFXSection → Bool → List (List Nat) → List Nat
  | [], _, _ => []
  | s :: rest, isFirst, fleet =>
    let r := emit_section version309 zf compress sctx isFirst fleet s
    r.1 ++ run_sections version309 zf compress sctx rest false r.2

/-- `SFXFile.MAGIC_HEADER`: the bytes of `"!AVIDYNE_SFX!"`. -/
def MAGIC_HEADER : List Nat :=
  [0x21, 0x41, 0x56, 0x49, 0x44, 0x59, 0x4E, 0x45, 0x5F, 0x53, 0x46, 0x58, 0x21]

/-- `SFXFile.MAGIC_FOOTER` from `avidyne.py`. -/
def MAGIC_FOOTER : Nat := 0x03040506

/-- `SFXFile.VERSION_3_09` as bytes (`"3.09"`). -/
def VERSION_3_09 : List Nat := [0x33, 0x2E, 0x30, 0x39]

/-- `SFXFile` from `avidyne.py`: the 4-byte ASCII version and the section
list. -/
structure SFXFile where
  version : List Nat
  sections : List SFXSection

/-- `SFXFile.run`: the full binary emit path — header magic, version bytes,
big-endian section count, the sections, and the big-endian footer magic. -/
def SFXFile.run (sfx : SFXFile) (zf compress : List Nat → List Nat)
    (sctx : SecurityContext) : List Nat :=
  MAGIC_HEADER ++ sfx.version ++ write_u32 sfx.sections.length ++
    run_sections (sfx.version = VERSION_3_09) zf compress sctx sfx.sections
      true sctx.fleet_ids ++
    write_u32 MAGIC_FOOTER

end Avidyne


namespace Dbf

/-- `DbfField` from `dbf.py`: 11-byte name, 1-character type, length. The
name plays no role in the record codec. -/
structure DbfField where
  name : List Nat
  type : Char
  length : Nat

/-- The Python values produced by `DbfFile.read_record`: a Latin-1 string for
`C`, an optional date for `D`, an optional bool for `L`, an optional int for
`M`/`N`. -/
inductive DbfValue where
  | text (s : List Nat)
  | date (d : Option (Nat × Nat × Nat))
  | logical (b : Option Bool)
  | intval (n : Option Int)
deriving DecidableEq

/-- Python `str.strip(' ')` over Latin-1 bytes: drop spaces from both ends. -/
def stripSpaces (l : List Nat) : List Nat :=
  ((l.dropWhile (fun b => b = 32)).reverse.dropWhile (fun b => b = 32)).reverse

/-- ASCII digit test. -/
def isDigit (b : Nat) : Bool := decide (48 ≤ b) && decide (b ≤ 57)

/-- The numeric value of a list of ASCII digits. -/
def digitsToNat (l : List Nat) : Nat :=
  l.foldl (fun acc b => acc * 10 + (b - 48)) 0

/-- Gregorian leap year, as `datetime.date` uses. -/
def isLeap (y : Nat) : Bool :=
  (decide (y % 4 = 0) && decide (y % 100 ≠ 0)) || decide (y % 400 = 0)

/-- Days in a month, as `datetime.date` uses. -/
def daysInMonth (y m : Nat) : Nat :=
  if m = 2 then (if isLeap y then 29 else 28)
  else if m = 4 ∨ m = 6 ∨ m = 9 ∨ m = 11 then 30
  else 31

/-- Modelled from the spec: `D` (date) fields hold "eight ASCII digits
`YYYYMMDD`". This models `datetime.datetime.strptime(data, '%Y%m%d').date()`
restricted to that eight-digit shape (4-digit year, 2-digit month and day),
with `datetime.date`'s calendar validation. -/
def parseDate (s : List Nat) : Option (Nat × Nat × Nat) :=
  match s with
  | [y1, y2, y3, y4, m1, m2, d1, d2] =>
    if isDigit y1 && isDigit y2 && isDigit y3 && isDigit y4 &&
        isDigit m1 && isDigit m2 && isDigit d1 && isDigit d2 then
      let y := digitsToNat [y1, y2, y3, y4]
      let m := digitsToNat [m1, m2]
      let d := digitsToNat [d1, d2]
      if 1 ≤ y ∧ 1 ≤ m ∧ m ≤ 12 ∧ 1 ≤ d ∧ d ≤ daysInMonth y m then
        some (y, m, d)
      else none
    else none
  | _ => none

/-- The ASCII decimal digits of a natural number (Python `str` of a
nonnegative int). -/
def natAscii (n : Nat) : List Nat := (Nat.repr n).toList.map Char.toNat

/-- Two-ASCII-digit zero-padded rendering (`strftime` `%m` / `%d`). -/
def pad2 (n : Nat) : List Nat := if n < 10 then [48, 48 + n] else natAscii n

/-- `value.strftime('%Y%m%d')`: the year as plain decimal digits (glibc does
not zero-pad `%Y`; canonical records use years ≥ 1000, where this is four
digits), month and day zero-padded to two. -/
def formatDate (y m d : Nat) : List Nat := natAscii y ++ pad2 m ++ pad2 d

/-- A nonempty all-digit string parsed as a natural number. -/
def parseDigits (l : List Nat) : Option Nat :=
  if l ≠ [] ∧ l.all isDigit then some (digitsToNat l) else none

/-- Python `int(data)` on a stripped string, modelled per the spec as an
optionally-signed decimal integer. -/
def parseInt (s : List Nat) : Option Int :=
  match s with
  | 43 :: rest => (parseDigits rest).map (fun n => (n : Int))
  | 45 :: rest => (parseDigits rest).map (fun n => -(n : Int))
  | _ => (parseDigits s).map (fun n => (n : Int))

/-- Python `str` of an int. -/
def intAscii (n : Int) : List Nat :=
  if n < 0 then 45 :: natAscii n.natAbs else natAscii n.natAbs

/-- One field of `DbfFile.read_record`: read `field.length` bytes, decode
Latin-1 (identity on bytes), `strip(' ')` — both sides — then decode by
field type; `none` models the `ValueError` raises (and unsupported types). -/
def readValue (t : Char) (chunk : List Nat) : Option DbfValue :=
  let data := stripSpaces chunk
  if t = 'C' then some (.text data)
  else if t = 'D' then
    if data = [] then some (.date none)
    else (parseDate data).map (fun v => .date (some v))
  else if t = 'L' then
    match data with
    | [c] =>
      if c = 89 ∨ c = 121 ∨ c = 84 ∨ c = 116 then some (.logical (some true))
      else if c = 78 ∨ c = 110 ∨ c = 70 ∨ c = 102 then
        some (.logical (some false))
      else if c = 63 then some (.logical none)
      else none
    | _ => none
  else if t = 'M' ∨ t = 'N' then
    if data = [] then some (.intval none)
    else (parseInt data).map (fun n => .intval (some n))
  else none

/-- The field loop of `DbfFile.read_record` over the bytes after the deletion
marker. -/
def read_fields : List DbfField → List Nat → Option (List DbfValue)
  | [], _ => some []
  | f :: fs, bytes => do
    let v ← readValue f.type (bytes.take f.length)
    let vs ← read_fields fs (bytes.drop f.length)
    pure (v :: vs)

/-- `DbfFile.read_record(fd, fields)` on the record's bytes: a `' '` deletion
marker followed by the fields (`'*'` raises `DeletedRecord`, anything else
raises too; both are `none`). -/
def read_record (fields : List DbfField) (data : List Nat) :
    Option (List DbfValue) :=
  match data with
  | [] => none
  | marker :: rest =>
    if marker = 32 then read_fields fields rest else none

/-- One field of `DbfFile.write_record`: render the value. `none` models the
raises (`C` of `None`, the `L` dict lookup `KeyError`) and type-mismatched
values. `M`/`N` rendering is `str(value)` left-justified — the vendor-quirk
the source keeps. -/
def writeValue (t : Char) (v : DbfValue) : Option (List Nat) :=
  if t = 'C' then
    match v with
    | .text s => some s
    | _ => none
  else if t = 'D' then
    match v with
    | .date none => some []
    | .date (some (y, m, d)) => some (formatDate y m d)
    | _ => none
  else if t = 'L' then
    match v with
    | .logical (some true) => some [84]
    | .logical (some false) => some [70]
    | .logical none => some [63]
    | _ => none
  else if t = 'M' ∨ t = 'N' then
    match v with
    | .intval none => some []
    | .intval (some n) => some (intAscii n)
    | _ => none
  else none

/-- The `zip(fields, values)` loop of `DbfFile.write_record`: each rendered
value is left-justified with spaces to the field length
(`data.ljust(field.length)`; longer data is not truncated). -/
def write_fields : List (DbfField × DbfValue) → Option (List Nat)
  | [] => some []
  | (f, v) :: rest => do
    let data ← writeValue f.type v
    let tail ← write_fields rest
    pure ((data ++ List.replicate (f.length - data.length) 32) ++ tail)

/-- `DbfFile.write_record(fd, fields, values)`: the `' '` marker followed by
the left-justified field renderings. -/
def write_record (fields : List DbfField) (values : List DbfValue) :
    Option (List Nat) :=
  (write_fields (fields.zip values)).map (fun l => 32 :: l)

/-- A field's bytes in canonical form: exactly `field.length` bytes, the
stripped content left-justified (so no leading spaces unless all spaces), and
the content in the exact form `write_record` emits — dates as
parse-then-format fixed points, logicals as `T`/`F`/`?`, memo values as
canonical signed decimals. Field type `N` is excluded (the vendor-quirk the
claim leaves out). -/
def canonicalChunk (f : DbfField) (chunk : List Nat) : Prop :=
  chunk.length = f.length ∧
    chunk = stripSpaces chunk ++
      List.replicate (f.length - (stripSpaces chunk).length) 32 ∧
    (if f.type = 'C' then True
     else if f.type = 'D' then
       stripSpaces chunk = [] ∨
         (parseDate (stripSpaces chunk)).map
           (fun v => formatDate v.1 v.2.1 v.2.2) = some (stripSpaces chunk)
     else if f.type = 'L' then
       stripSpaces chunk = [84] ∨ stripSpaces chunk = [70] ∨
         stripSpaces chunk = [63]
     else if f.type = 'M' then
       stripSpaces chunk = [] ∨
         (parseInt (stripSpaces chunk)).map intAscii = some (stripSpaces chunk)
     else False)

/-- `canonicalChunk` is decidable (used to check concrete witnesses). -/
instance (f : DbfField) (chunk : List Nat) : Decidable (canonicalChunk f chunk) := by
  unfold canonicalChunk
  infer_instance

end Dbf


namespace ChartView

/-- `bytes.rstrip(b'\x00')`. -/
def stripTrailingZeros (l : List Nat) : List Nat :=
  (l.reverse.dropWhile (fun b => b = 0)).reverse

/-- `ChartHeader.SIZE` from `chartview.py` (27 bytes). -/
def SIZE : Nat := 27

/-- `ChartHeader.MAGIC` from `chartview.py`: `0x1000000 + 27`. -/
def MAGIC : Nat := 0x1000000 + 27

/-- `ChartHeader` from `chartview.py`. The `<4i>` fields are modelled as
`Nat` (the files in play are far below 2^31). -/
structure ChartHeader where
  checksum : Nat
  num_files : Nat
  index_offset : Nat
  db_begin_date : List Nat
deriving DecidableEq

/-- `ChartHeader.from_bytes`: unpack `<4i11s>` and check the magic
(`ValueError` — `none` — on mismatch or short data). -/
def ChartHeader.from_bytes (data : List Nat) : Option ChartHeader :=
  if data.length = 27 ∧ Taws.fromLeBytes ((data.drop 4).take 4) = MAGIC then
    some ⟨Taws.fromLeBytes (data.take 4),
      Taws.fromLeBytes ((data.drop 8).take 4),
      Taws.fromLeBytes ((data.drop 12).take 4),
      stripTrailingZeros ((data.drop 16).take 11)⟩
  else none

/-- `ChartHeader.to_bytes`: pack `<4i11s>` (the date null-padded, and
truncated, to 11 bytes). -/
def ChartHeader.to_bytes (h : ChartHeader) : List Nat :=
  Checksum.toBytesLe4 h.checksum ++ Checksum.toBytesLe4 MAGIC ++
    Checksum.toBytesLe4 h.num_files ++ Checksum.toBytesLe4 h.index_offset ++
    (h.db_begin_date.take 11 ++
      List.replicate (11 - h.db_begin_date.length) 0)

/-- `ChartRecord` from `chartview.py`: 26-byte name, offset, size, 6 bytes of
metadata. -/
structure ChartRecord where
  name : List Nat
  offset : Nat
  size : Nat
  metadata : List Nat
deriving DecidableEq

/-- `ChartRecord.from_bytes`: unpack `<26s2i6s>`. -/
def ChartRecord.from_bytes (data : List Nat) : Option ChartRecord :=
  if data.length = 40 then
    some ⟨stripTrailingZeros (data.take 26),
      Taws.fromLeBytes ((data.drop 26).take 4),
      Taws.fromLeBytes ((data.drop 30).take 4),
      (data.drop 34).take 6⟩
  else none

/-- `ChartRecord.to_bytes`: pack `<26s2i6s>`. -/
def ChartRecord.to_bytes (r : ChartRecord) : List Nat :=
  (r.name.take 26 ++ List.replicate (26 - r.name.length) 0) ++
    Checksum.toBytesLe4 r.offset ++ Checksum.toBytesLe4 r.size ++
    (r.metadata.take 6 ++ List.replicate (6 - r.metadata.length) 0)

/-- ASCII lowercasing, the fragment of `str.lower()` the filename check
needs. -/
def toLowerByte (b : Nat) : Nat := if 65 ≤ b ∧ b ≤ 90 then b + 32 else b

/-- The bytes of `"charts.bin"`. -/
def CHARTS_BIN : List Nat := [99, 104, 97, 114, 116, 115, 46, 98, 105, 110]

/-- The bytes of `"vfrcharts.bin"`. -/
def VFRCHARTS_BIN : List Nat := [118, 102, 114] ++ CHARTS_BIN

/-- The `code, name = chart_fd.name.split('_')` parse of
`process_charts_bin` (filenames as UTF-8 bytes), with the lower-cased
`charts.bin` / `vfrcharts.bin` suffix check (`ValueError` — `none` —
otherwise). -/
def parse_chart_name (fname : List Nat) : Option (List Nat × Bool) :=
  match Avidyne.splitOnByte 95 fname with
  | [code, nm] =>
    if nm.map toLowerByte = CHARTS_BIN then some (code, false)
    else if nm.map toLowerByte = VFRCHARTS_BIN then some (code, true)
    else none
  | _ => none

/-- Reading the 40-byte record array of one input at its `index_offset`. -/
def parse_records (f : List Nat) (index_offset num_files : Nat) :
    Option (List ChartRecord) :=
  (List.range num_files).mapM
    (fun i => ChartRecord.from_bytes ((f.drop (index_offset + 40 * i)).take 40))

/-- Sum of the `size` fields of a record list. -/
def sizes_sum (rs : List ChartRecord) : Nat := (rs.map (fun r => r.size)).sum

/-- The payload loop of `process_charts_bin` for one input: per record,
assert `0 < size < 0x1000000` (`none` on failure), read the payload at the
record's old offset, rewrite the offset to the running `total_offset`, and
advance it by `size`. Returns the rewritten records and the payload bytes. -/
def process_records (f : List Nat) :
    List ChartRecord → Nat → Option (List ChartRecord × List Nat)
  | [], _ => some ([], [])
  | r :: rest, total_offset =>
    if 0 < r.size ∧ r.size < 0x1000000 then do
      let contents := (f.drop r.offset).take r.size
      let x ← process_records f rest (total_offset + r.size)
      pure ({ r with offset := total_offset } :: x.1, contents ++ x.2)
    else none

/-- Everything `process_charts_bin` does with one input after the header
pass: parse its record array, check its filename, and run the payload loop. -/
def process_input (inp : List Nat × List Nat) (total_offset : Nat) :
    Option (ChartHeader × List ChartRecord × List Nat) := do
  let header ← ChartHeader.from_bytes (inp.2.take 27)
  let records ← parse_records inp.2 header.index_offset header.num_files
  let _ ← parse_chart_name inp.1
  let x ← process_records inp.2 records total_offset
  pure (header, x.1, x.2)

/-- The input loop of `process_charts_bin`, accumulating rewritten records
and payload. -/
def process_inputs :
    List (List Nat × List Nat) → Nat → Option (List ChartRecord × List Nat)
  | [], _ => some ([], [])
  | inp :: rest, total_offset => do
    let x ← process_input inp total_offset
    let y ← process_inputs rest (total_offset + sizes_sum x.2.1)
    pure (x.2.1 ++ y.1, x.2.2 ++ y.2)

/-- Byte-lexicographic order on names. Python sorts the records by the
decoded `name` string; UTF-8 byte order coincides with code-point order. -/
def lexLe : List Nat → List Nat → Bool
  | [], _ => true
  | _ :: _, [] => false
  | a :: as, b :: bs => if a < b then true else if a = b then lexLe as bs else false

/-- The `num_files` of an input's parsed header (0 if its header does not
parse; only used under well-formedness). -/
def inputNumFiles (inp : List Nat × List Nat) : Nat :=
  (ChartHeader.from_bytes (inp.2.take 27)).elim 0 (fun h => h.num_files)

/-- `ChartView.process_charts_bin` on the input `charts.bin` files: parse all
headers (magic check), write the merged header with `num_files = Σ num_files`
and `index_offset = Σ (index_offset - 27) + 27`, append every input's
payloads at increasing offsets while rewriting record offsets, sort the
accumulated records by name and append them, and finally store the CRC32Q of
everything after the checksum field as the little-endian checksum. Returns
the output bytes together with the merged header and the record list before
and after sorting (observable in the output; carried for the theorems). -/
def process_charts_bin (inputs : List (List Nat × List Nat))
    (db_begin_date : List Nat) :
    Option (List Nat × ChartHeader × List ChartRecord × List ChartRecord) := do
  let headers ← inputs.mapM (fun inp => ChartHeader.from_bytes (inp.2.take 27))
  let total_size := (headers.map (fun h => h.index_offset - SIZE)).sum
  let total_files := (headers.map (fun h => h.num_files)).sum
  let new_header : ChartHeader := ⟨0, total_files, total_size + SIZE, db_begin_date⟩
  let x ← process_inputs inputs SIZE
  let sorted := x.1.mergeSort (fun a b => lexLe a.name b.name)
  let record_bytes := (sorted.map ChartRecord.to_bytes).flatten
  let body := new_header.to_bytes.drop 4 ++ x.2 ++ record_bytes
  let crc := Checksum.crc32q_checksum body 0
  pure (Checksum.toBytesLe4 crc ++ body, new_header, x.1, sorted)

/-- An input `charts.bin` is well-formed when its header parses (valid
magic), its record array parses, its filename has the `<code>_<kind>` shape,
its records tile the payload region (`index_offset = 27 + Σ sizes`, the
layout §6.2 of the format prescribes), and every record's payload lies
within the file with size in `(0, 0x1000000)`. -/
def WellFormedInput (inp : List Nat × List Nat) : Prop :=
  ∃ h records,
    ChartHeader.from_bytes (inp.2.take 27) = some h ∧
    parse_records inp.2 h.index_offset h.num_files = some records ∧
    (parse_chart_name inp.1).isSome ∧
    h.index_offset = SIZE + sizes_sum records ∧
    ∀ r ∈ records,
      0 < r.size ∧ r.size < 0x1000000 ∧ r.offset + r.size ≤ inp.2.length

/-- The rewritten record offsets tile the interval starting at `start`: each
record begins where the previous one ended. -/
def contiguousFrom : Nat → List ChartRecord → Prop
  | _, [] => True
  | start, r :: rs => r.offset = start ∧ contiguousFrom (start + r.size) rs

/-- The `index_offset` of an input's parsed header (0 if its header does not
parse; only used under well-formedness). -/
def inputIndexOffset (inp : List Nat × List Nat) : Nat :=
  (ChartHeader.from_bytes (inp.2.take 27)).elim 0 (fun h => h.index_offset)

end ChartView

/-! ## Theorems -/

theorem and_mask_255 (x : Nat) : x &&& 255 = x % 256 := by
  have h := Nat.and_pow_two_sub_one_eq_mod x 8
  norm_num at h
  exact h

theorem and_mask_ffff (x : Nat) : x &&& 0xFFFF = x % 0x10000 := by
  have h := Nat.and_pow_two_sub_one_eq_mod x 16
  norm_num at h
  exact h

theorem and_mask_ffffff (x : Nat) : x &&& 0xFFFFFF = x % 0x1000000 := by
  have h := Nat.and_pow_two_sub_one_eq_mod x 24
  norm_num at h
  exact h

theorem and_mask_ffffffff (x : Nat) : x &&& 0xFFFFFFFF = x % 0x100000000 := by
  have h := Nat.and_pow_two_sub_one_eq_mod x 32
  norm_num at h
  exact h

namespace Checksum

set_option maxRecDepth 100000 in
theorem crc32q_table_mem_lt : ∀ x ∈ crc32q_lookup_table, x < 2 ^ 32 := by decide

set_option maxRecDepth 100000 in
theorem feat_unlk_table_mem_lt : ∀ x ∈ feat_unlk_lookup_table, x < 2 ^ 32 := by decide

theorem getD_lt_of_mem_lt {l : List Nat} (h : ∀ x ∈ l, x < 2 ^ 32) (i : Nat) :
    l.getD i 0 < 2 ^ 32 := by
  rcases Nat.lt_or_ge i l.length with hi | hi
  · rw [List.getD_eq_getElem?_getD, List.getElem?_eq_getElem hi]
    exact h _ (List.getElem_mem hi)
  · rw [List.getD_eq_getElem?_getD, List.getElem?_eq_none (by omega)]
    norm_num

theorem crc32q_table_getD_lt (i : Nat) : crc32q_lookup_table.getD i 0 < 2 ^ 32 :=
  getD_lt_of_mem_lt crc32q_table_mem_lt i

theorem feat_unlk_table_getD_lt (i : Nat) : feat_unlk_lookup_table.getD i 0 < 2 ^ 32 :=
  getD_lt_of_mem_lt feat_unlk_table_mem_lt i

theorem crc32q_table_getD_zero : crc32q_lookup_table.getD 0 0 = 0 := by decide

theorem feat_unlk_table_getD_zero : feat_unlk_lookup_table.getD 0 0 = 0 := by decide

/-- One step of `crc32q_checksum`, unfolded. -/
theorem crc32q_cons (b : Nat) (rest : List Nat) (value : Nat) :
    crc32q_checksum (b :: rest) value =
      crc32q_checksum rest
        (crc32q_lookup_table.getD (b ^^^ (value >>> 24)) 0 ^^^
          ((value &&& 0x00FFFFFF) <<< 8)) := rfl

/-- One step of `feat_unlk_checksum`, unfolded. -/
theorem feat_unlk_cons (b : Nat) (rest : List Nat) (value : Nat) :
    feat_unlk_checksum (b :: rest) value =
      feat_unlk_checksum rest
        (feat_unlk_lookup_table.getD (b ^^^ (value &&& 0xFF)) 0 ^^^ (value >>> 8)) := rfl

/-- The running `crc32q_checksum` value stays below `2^32`. -/
theorem crc32q_checksum_lt (data : List Nat) :
    ∀ value : Nat, value < 2 ^ 32 → crc32q_checksum data value < 2 ^ 32 := by
  induction data with
  | nil => intro value h; exact h
  | cons b rest ih =>
    intro value _
    rw [crc32q_cons]
    apply ih
    apply Nat.xor_lt_two_pow (crc32q_table_getD_lt _)
    have : value &&& 0xFFFFFF < 0x1000000 := by
      rw [and_mask_ffffff]; exact Nat.mod_lt _ (by norm_num)
    simp only [Nat.shiftLeft_eq]
    omega

/-- The running `feat_unlk_checksum` value stays below `2^32`. -/
theorem feat_unlk_checksum_lt (data : List Nat) :
    ∀ value : Nat, value < 2 ^ 32 → feat_unlk_checksum data value < 2 ^ 32 := by
  induction data with
  | nil => intro value h; exact h
  | cons b rest ih =>
    intro value h
    rw [feat_unlk_cons]
    apply ih
    apply Nat.xor_lt_two_pow (feat_unlk_table_getD_lt _)
    simp only [Nat.shiftRight_eq_div_pow]
    omega

theorem crc32q_append (a b : List Nat) (value : Nat) :
    crc32q_checksum (a ++ b) value = crc32q_checksum b (crc32q_checksum a value) := by
  induction a generalizing value with
  | nil => rfl
  | cons x rest ih => rw [List.cons_append, crc32q_cons, crc32q_cons, ih]

theorem feat_unlk_append (a b : List Nat) (value : Nat) :
    feat_unlk_checksum (a ++ b) value =
      feat_unlk_checksum b (feat_unlk_checksum a value) := by
  induction a generalizing value with
  | nil => rfl
  | cons x rest ih => rw [List.cons_append, feat_unlk_cons, feat_unlk_cons, ih]

/-- Feeding the big-endian bytes of the current CRC32Q value into the CRC
drives it to zero: each step looks up table entry 0 (which is 0). -/
theorem crc32q_selfbytes (c : Nat) (hc : c < 2 ^ 32) :
    crc32q_checksum (toBytesBe4 c) c = 0 := by
  have h0 : ((c >>> 24) &&& 255) ^^^ (c >>> 24) = 0 := by
    have h : (c >>> 24) &&& 255 = c >>> 24 := by
      simp only [Nat.shiftRight_eq_div_pow, and_mask_255]; omega
    rw [h, Nat.xor_self]
  have h1 : ((c >>> 16) &&& 255) ^^^ (((c &&& 0xFFFFFF) <<< 8) >>> 24) = 0 := by
    have h : (c >>> 16) &&& 255 = ((c &&& 0xFFFFFF) <<< 8) >>> 24 := by
      simp only [Nat.shiftRight_eq_div_pow, Nat.shiftLeft_eq, and_mask_255, and_mask_ffffff]
      norm_num; omega
    rw [h, Nat.xor_self]
  have h2 : ((c >>> 8) &&& 255) ^^^
      (((((c &&& 0xFFFFFF) <<< 8) &&& 0xFFFFFF) <<< 8) >>> 24) = 0 := by
    have h : (c >>> 8) &&& 255 = ((((c &&& 0xFFFFFF) <<< 8) &&& 0xFFFFFF) <<< 8) >>> 24 := by
      simp only [Nat.shiftRight_eq_div_pow, Nat.shiftLeft_eq, and_mask_255, and_mask_ffffff]
      norm_num; omega
    rw [h, Nat.xor_self]
  have h3 : (c &&& 255) ^^^
      (((((((c &&& 0xFFFFFF) <<< 8) &&& 0xFFFFFF) <<< 8) &&& 0xFFFFFF) <<< 8) >>> 24) = 0 := by
    have h : c &&& 255 =
        ((((((c &&& 0xFFFFFF) <<< 8) &&& 0xFFFFFF) <<< 8) &&& 0xFFFFFF) <<< 8) >>> 24 := by
      simp only [Nat.shiftRight_eq_div_pow, Nat.shiftLeft_eq, and_mask_255, and_mask_ffffff]
      norm_num; omega
    rw [h, Nat.xor_self]
  have h4 : ((((((((c &&& 0xFFFFFF) <<< 8) &&& 0xFFFFFF) <<< 8) &&& 0xFFFFFF) <<< 8)
      &&& 0xFFFFFF) <<< 8) = 0 := by
    simp only [Nat.shiftLeft_eq, and_mask_ffffff]
    omega
  show crc32q_checksum [(c >>> 24) &&& 255, (c >>> 16) &&& 255, (c >>> 8) &&& 255, c &&& 255] c = 0
  rw [crc32q_cons, h0, crc32q_table_getD_zero, Nat.zero_xor]
  rw [crc32q_cons, h1, crc32q_table_getD_zero, Nat.zero_xor]
  rw [crc32q_cons, h2, crc32q_table_getD_zero, Nat.zero_xor]
  rw [crc32q_cons, h3, crc32q_table_getD_zero, Nat.zero_xor, h4]
  rfl

/-- Feeding the little-endian bytes of the current feat-unlk value into the
checksum drives it to zero. -/
theorem feat_unlk_selfbytes (c : Nat) (hc : c < 2 ^ 32) :
    feat_unlk_checksum (toBytesLe4 c) c = 0 := by
  have h0 : (c &&& 255) ^^^ (c &&& 0xFF) = 0 := Nat.xor_self _
  have h1 : ((c >>> 8) &&& 255) ^^^ ((c >>> 8) &&& 0xFF) = 0 := Nat.xor_self _
  have h2 : ((c >>> 16) &&& 255) ^^^ (((c >>> 8) >>> 8) &&& 0xFF) = 0 := by
    have h : (c >>> 16) &&& 255 = ((c >>> 8) >>> 8) &&& 0xFF := by
      simp only [Nat.shiftRight_eq_div_pow, and_mask_255]
      norm_num; omega
    rw [h, Nat.xor_self]
  have h3 : ((c >>> 24) &&& 255) ^^^ ((((c >>> 8) >>> 8) >>> 8) &&& 0xFF) = 0 := by
    have h : (c >>> 24) &&& 255 = (((c >>> 8) >>> 8) >>> 8) &&& 0xFF := by
      simp only [Nat.shiftRight_eq_div_pow, and_mask_255]
      norm_num; omega
    rw [h, Nat.xor_self]
  have h4 : (((c >>> 8) >>> 8) >>> 8) >>> 8 = 0 := by
    simp only [Nat.shiftRight_eq_div_pow]
    norm_num; omega
  show feat_unlk_checksum
    [c &&& 255, (c >>> 8) &&& 255, (c >>> 16) &&& 255, (c >>> 24) &&& 255] c = 0
  rw [feat_unlk_cons, h0, feat_unlk_table_getD_zero, Nat.zero_xor]
  rw [feat_unlk_cons, h1, feat_unlk_table_getD_zero, Nat.zero_xor]
  rw [feat_unlk_cons, h2, feat_unlk_table_getD_zero, Nat.zero_xor]
  rw [feat_unlk_cons, h3, feat_unlk_table_getD_zero, Nat.zero_xor, h4]
  rfl

/-- CRC32Q closure for an arbitrary seed below `2^32`. -/
theorem crc32q_closure (data : List Nat) (value : Nat) (h : value < 2 ^ 32) :
    crc32q_checksum (data ++ toBytesBe4 (crc32q_checksum data value)) value = 0 := by
  rw [crc32q_append]
  exact crc32q_selfbytes _ (crc32q_checksum_lt data value h)

/-- Feat-unlk closure for an arbitrary seed below `2^32`. -/
theorem feat_unlk_closure (data : List Nat) (value : Nat) (h : value < 2 ^ 32) :
    feat_unlk_checksum (data ++ toBytesLe4 (feat_unlk_checksum data value)) value = 0 := by
  rw [feat_unlk_append]
  exact feat_unlk_selfbytes _ (feat_unlk_checksum_lt data value h)

end Checksum

/-- C1: For every byte string `b`, appending the 4-byte big-endian CRC32Q of
`b` (seed 0) to `b` yields a stream whose CRC32Q (seed 0) is 0; and appending
the 4-byte little-endian feat-unlk checksum of `b` (seed 0xFFFFFFFF) to `b`
yields a stream whose feat-unlk checksum (seed 0xFFFFFFFF) is 0. -/
theorem crc_closure_property (b : List Nat) (hb : ∀ x ∈ b, x < 256) :
    Checksum.crc32q_checksum
        (b ++ Checksum.toBytesBe4 (Checksum.crc32q_checksum b 0)) 0 = 0 ∧
      Checksum.feat_unlk_checksum
        (b ++ Checksum.toBytesLe4 (Checksum.feat_unlk_checksum b 0xFFFFFFFF))
        0xFFFFFFFF = 0 :=
  ⟨Checksum.crc32q_closure b 0 (by norm_num),
   Checksum.feat_unlk_closure b 0xFFFFFFFF (by norm_num)⟩

/-- Witness for C1: the closure property holds at the byte string
"hello world" (whose CRC32Q is 0x13AA9356 and feat-unlk checksum 0xF2B5EE7A,
matching the repository's own test vectors). -/
theorem crc_closure_property_witness :
    (∀ x ∈ [104, 101, 108, 108, 111, 32, 119, 111, 114, 108, 100], x < 256) ∧
      (Checksum.crc32q_checksum
          ([104, 101, 108, 108, 111, 32, 119, 111, 114, 108, 100] ++
            Checksum.toBytesBe4 (Checksum.crc32q_checksum
              [104, 101, 108, 108, 111, 32, 119, 111, 114, 108, 100] 0)) 0 = 0 ∧
        Checksum.feat_unlk_checksum
          ([104, 101, 108, 108, 111, 32, 119, 111, 114, 108, 100] ++
            Checksum.toBytesLe4 (Checksum.feat_unlk_checksum
              [104, 101, 108, 108, 111, 32, 119, 111, 114, 108, 100] 0xFFFFFFFF))
          0xFFFFFFFF = 0) :=
  ⟨by decide, crc_closure_property _ (by decide)⟩

/-- C2 counterexample: the source's `translate_sector` does not match the
spec's formula. At `sectors_per_chip = 0x40`, `sector_id = 1` the source
returns `0xE0 + 1` but the spec formula returns `0xE0`. -/
theorem translate_sector_spec_counterexample :
    ¬ (∀ sectors_per_chip sector_id : Nat,
        Skybound.translate_sector sectors_per_chip sector_id =
          Skybound.translate_sector_spec sectors_per_chip sector_id) :=
  fun h => absurd (h 0x40 1) (by decide)

/-- C2 (amended): the Skybound logical-to-physical translation returns
`MEMORY_OFFSETS[L / spc] + (L mod 0x20) + 0x200 * ((L / 0x20) mod 2)` when
`spc > 0x20` (4 MiB chips), and `MEMORY_OFFSETS[L / spc] + (L mod spc)`
otherwise. -/
theorem translate_sector_eq_amended (sectors_per_chip sector_id : Nat) :
    Skybound.translate_sector sectors_per_chip sector_id =
      Skybound.translate_sector_amended sectors_per_chip sector_id := by
  unfold Skybound.translate_sector Skybound.translate_sector_amended
  rfl

/-- `datablockStep512` on a zero byte only increments the index: table entry
0 is 0, so the value is unchanged. -/
theorem datablockStep512_zero (v i : Nat) :
    Taws.datablockStep512 (v, i) 0 = (v, i + 1) := by
  have ht : Taws.datablock_lookup_table.getD 0 0 = 0 := rfl
  simp only [Taws.datablockStep512, ht]
  norm_num

/-- Folding `datablockStep512` over `n` zero bytes only advances the index. -/
theorem foldl_datablockStep512_zeros (n : Nat) :
    ∀ v i : Nat,
      List.foldl Taws.datablockStep512 (v, i) (List.replicate n 0) = (v, i + n) := by
  induction n with
  | zero => intro v i; simp
  | succ m ih =>
    intro v i
    rw [List.replicate_succ, List.foldl_cons, datablockStep512_zero, ih]
    congr 1
    omega

/-- `crc16_checksum` distributes over append (it is a left fold). -/
theorem crc16_append_chunk (a b : List Nat) (v : Nat) :
    Taws.crc16_checksum (a ++ b) v =
      Taws.crc16_checksum b (Taws.crc16_checksum a v) := by
  simp [Taws.crc16_checksum, List.foldl_append]

set_option maxRecDepth 30000 in
/-- The mcrf4xx CRC16 of 512 zero bytes from seed 0xFFFF, evaluated in
32-byte chunks. -/
theorem crc16_zeros512 :
    Taws.crc16_checksum (List.replicate 512 0) 0xFFFF = 11368 := by
  rw [(by norm_num : List.replicate 512 (0 : Nat) = List.replicate (32 + 480) 0),
    List.replicate_add, crc16_append_chunk,
    (by decide : Taws.crc16_checksum (List.replicate 32 0) 65535 = 12943)]
  rw [(by norm_num : List.replicate 480 (0 : Nat) = List.replicate (32 + 448) 0),
    List.replicate_add, crc16_append_chunk,
    (by decide : Taws.crc16_checksum (List.replicate 32 0) 12943 = 23403)]
  rw [(by norm_num : List.replicate 448 (0 : Nat) = List.replicate (32 + 416) 0),
    List.replicate_add, crc16_append_chunk,
    (by decide : Taws.crc16_checksum (List.replicate 32 0) 23403 = 13393)]
  rw [(by norm_num : List.replicate 416 (0 : Nat) = List.replicate (32 + 384) 0),
    List.replicate_add, crc16_append_chunk,
    (by decide : Taws.crc16_checksum (List.replicate 32 0) 13393 = 20495)]
  rw [(by norm_num : List.replicate 384 (0 : Nat) = List.replicate (32 + 352) 0),
    List.replicate_add, crc16_append_chunk,
    (by decide : Taws.crc16_checksum (List.replicate 32 0) 20495 = 4768)]
  rw [(by norm_num : List.replicate 352 (0 : Nat) = List.replicate (32 + 320) 0),
    List.replicate_add, crc16_append_chunk,
    (by decide : Taws.crc16_checksum (List.replicate 32 0) 4768 = 20417)]
  rw [(by norm_num : List.replicate 320 (0 : Nat) = List.replicate (32 + 288) 0),
    List.replicate_add, crc16_append_chunk,
    (by decide : Taws.crc16_checksum (List.replicate 32 0) 20417 = 47341)]
  rw [(by norm_num : List.replicate 288 (0 : Nat) = List.replicate (32 + 256) 0),
    List.replicate_add, crc16_append_chunk,
    (by decide : Taws.crc16_checksum (List.replicate 32 0) 47341 = 6018)]
  rw [(by norm_num : List.replicate 256 (0 : Nat) = List.replicate (32 + 224) 0),
    List.replicate_add, crc16_append_chunk,
    (by decide : Taws.crc16_checksum (List.replicate 32 0) 6018 = 62588)]
  rw [(by norm_num : List.replicate 224 (0 : Nat) = List.replicate (32 + 192) 0),
    List.replicate_add, crc16_append_chunk,
    (by decide : Taws.crc16_checksum (List.replicate 32 0) 62588 = 38712)]
  rw [(by norm_num : List.replicate 192 (0 : Nat) = List.replicate (32 + 160) 0),
    List.replicate_add, crc16_append_chunk,
    (by decide : Taws.crc16_checksum (List.replicate 32 0) 38712 = 40329)]
  rw [(by norm_num : List.replicate 160 (0 : Nat) = List.replicate (32 + 128) 0),
    List.replicate_add, crc16_append_chunk,
    (by decide : Taws.crc16_checksum (List.replicate 32 0) 40329 = 49463)]
  rw [(by norm_num : List.replicate 128 (0 : Nat) = List.replicate (32 + 96) 0),
    List.replicate_add, crc16_append_chunk,
    (by decide : Taws.crc16_checksum (List.replicate 32 0) 49463 = 435)]
  rw [(by norm_num : List.replicate 96 (0 : Nat) = List.replicate (32 + 64) 0),
    List.replicate_add, crc16_append_chunk,
    (by decide : Taws.crc16_checksum (List.replicate 32 0) 435 = 60657)]
  rw [(by norm_num : List.replicate 64 (0 : Nat) = List.replicate (32 + 32) 0),
    List.replicate_add, crc16_append_chunk,
    (by decide : Taws.crc16_checksum (List.replicate 32 0) 60657 = 56880)]
  rw [(by norm_num : List.replicate 32 (0 : Nat) = List.replicate (32 + 0) 0),
    List.replicate_add, crc16_append_chunk,
    (by decide : Taws.crc16_checksum (List.replicate 32 0) 56880 = 11368)]
  rfl

set_option maxRecDepth 30000 in
/-- The 512-page datablock checksum of 512 zero bytes against the 14-byte
footer prefix `[0] * 12 + [0x21, 0x9F]`. -/
theorem datablock512_zeros_value :
    Taws.datablock_checksum_pagesize512 (List.replicate 512 0)
      [0, 0, 0, 0, 0, 0, 0, 0, 0, 0, 0, 0, 33, 159] = 12 := by
  simp only [Taws.datablock_checksum_pagesize512]
  rw [(by decide : List.foldl Taws.datablockStep512 (0, 0x600)
        [0, 0, 0, 0, 0, 0, 0, 0, 0, 0, 0, 0, 33, 159] = (0xC0000000, 0x60E)),
    foldl_datablockStep512_zeros]
  decide

set_option maxRecDepth 30000 in
/-- The footer built by `create_footer` for the all-zero 512-byte block at
index 0: twelve zero bytes, the little-endian mcrf4xx CRC16 `0x9F21` of those
twelve bytes, and the little-endian datablock checksum `0x000C`. -/
theorem create_footer_zeros :
    Taws.create_footer (List.replicate 512 0) 0 16 =
      [0, 0, 0, 0, 0, 0, 0, 0, 0, 0, 0, 0, 33, 159, 12, 0] := by
  simp only [Taws.create_footer]
  rw [if_pos (by decide : (16 : Nat) = Taws.FOOTER_SIZE_128)]
  rw [(by decide : Checksum.toBytesLe4 0 ++ List.replicate (16 - 4 - 4) (0 : Nat) =
        [0, 0, 0, 0, 0, 0, 0, 0, 0, 0, 0, 0])]
  rw [(by decide : Taws.crc16_checksum [0, 0, 0, 0, 0, 0, 0, 0, 0, 0, 0, 0] 0xFFFF = 0x9F21)]
  rw [(by decide : Checksum.toBytesLe2 0x9F21 = [33, 159])]
  rw [(by decide : ([0, 0, 0, 0, 0, 0, 0, 0, 0, 0, 0, 0] ++ [33, 159] : List Nat) =
        [0, 0, 0, 0, 0, 0, 0, 0, 0, 0, 0, 0, 33, 159])]
  rw [datablock512_zeros_value]
  rfl

set_option maxRecDepth 30000 in
/-- C3 (code evaluated at the failing input): for the 512-byte all-zero data
block at index 0, the 16-byte footer built by `create_footer` passes the
datablock-checksum comparison of `verifyBlockCrc` but fails its mcrf4xx crc16
check, because the embedded CRC16 was computed over the 12-byte footer prefix
alone rather than over the data block followed by the footer prefix as
`verifyBlockCrc` (and the spec) require. -/
theorem create_footer_fails_verify :
    Taws.verifyBlockCrcBlockOk (List.replicate 512 0)
        (Taws.create_footer (List.replicate 512 0) 0 16) = true ∧
      Taws.verifyBlockCrcCrc16Ok (List.replicate 512 0)
        (Taws.create_footer (List.replicate 512 0) 0 16) = false ∧
      Taws.verifyBlockCrc (List.replicate 512 0)
        (Taws.create_footer (List.replicate 512 0) 0 16) = false := by
  rw [create_footer_zeros]
  have hlen : (List.replicate 512 (0 : Nat)).length = 512 := by simp
  have hblock : Taws.verifyBlockCrcBlockOk (List.replicate 512 0)
      [0, 0, 0, 0, 0, 0, 0, 0, 0, 0, 0, 0, 33, 159, 12, 0] = true := by
    unfold Taws.verifyBlockCrcBlockOk
    rw [hlen]
    rw [if_neg (by decide : ¬ ((512 : Nat) = Taws.BLOCK_SIZE_256))]
    rw [(by decide : ([0, 0, 0, 0, 0, 0, 0, 0, 0, 0, 0, 0, 33, 159, 12, 0] :
          List Nat).take (([0, 0, 0, 0, 0, 0, 0, 0, 0, 0, 0, 0, 33, 159, 12, 0] :
          List Nat).length - 2) = [0, 0, 0, 0, 0, 0, 0, 0, 0, 0, 0, 0, 33, 159])]
    rw [datablock512_zeros_value]
    decide
  have hcrc : Taws.verifyBlockCrcCrc16Ok (List.replicate 512 0)
      [0, 0, 0, 0, 0, 0, 0, 0, 0, 0, 0, 0, 33, 159, 12, 0] = false := by
    unfold Taws.verifyBlockCrcCrc16Ok
    rw [hlen]
    rw [if_pos (by decide : (512 : Nat) = Taws.BLOCK_SIZE_128)]
    rw [crc16_zeros512]
    rw [(by decide : ([0, 0, 0, 0, 0, 0, 0, 0, 0, 0, 0, 0, 33, 159, 12, 0] :
          List Nat).take (([0, 0, 0, 0, 0, 0, 0, 0, 0, 0, 0, 0, 33, 159, 12, 0] :
          List Nat).length - 2) = [0, 0, 0, 0, 0, 0, 0, 0, 0, 0, 0, 0, 33, 159])]
    decide
  refine ⟨hblock, hcrc, ?_⟩
  rw [Taws.verifyBlockCrc, hblock, hcrc]
  rfl

namespace Taws

/-- `translate_sector` never decreases the sector. -/
theorem le_translate_sector (bad_sectors : List Nat) :
    ∀ s : Nat, s ≤ translate_sector bad_sectors s := by
  induction bad_sectors with
  | nil => intro s; exact Nat.le_refl s
  | cons b rest ih =>
    intro s
    unfold translate_sector
    by_cases hb : b > s
    · simp [hb]
    · simp only [hb, if_false]
      exact Nat.le_trans (Nat.le_succ s) (ih (s + 1))

/-- `translate_sector` adds at most the number of bad sectors. -/
theorem translate_sector_le (bad_sectors : List Nat) :
    ∀ s : Nat, translate_sector bad_sectors s ≤ s + bad_sectors.length := by
  induction bad_sectors with
  | nil => intro s; simp [translate_sector]
  | cons b rest ih =>
    intro s
    unfold translate_sector
    by_cases hb : b > s
    · simp [hb]
    · simp only [hb, if_false, List.length_cons]
      have := ih (s + 1)
      omega

/-- `translate_sector` is strictly monotone in the logical sector. -/
theorem translate_sector_strictMono (bad_sectors : List Nat) :
    ∀ s t : Nat, s < t →
      translate_sector bad_sectors s < translate_sector bad_sectors t := by
  induction bad_sectors with
  | nil => intro s t h; exact h
  | cons b rest ih =>
    intro s t hst
    unfold translate_sector
    by_cases hbs : b > s
    · by_cases hbt : b > t
      · simp [hbs, hbt, hst]
      · simp only [hbs, hbt, if_true, if_false]
        have := le_translate_sector rest (t + 1)
        omega
    · have hbt : ¬ b > t := by omega
      simp only [hbs, hbt, if_false]
      exact ih (s + 1) (t + 1) (by omega)

end Taws

/-- C7: For a list of distinct ascending bad sectors below `total` and logical
sectors `l1 < l2` both below `total - |B|`, the TAWS translation lands in
`[0, total)` and is strictly monotone (hence injective) in the logical
sector. -/
theorem taws_translate_sector_range_and_mono
    (bad_sectors : List Nat) (total : Nat)
    (hsorted : List.Pairwise (· < ·) bad_sectors)
    (hmem : ∀ x ∈ bad_sectors, x < total)
    (l1 l2 : Nat) (h1 : l1 < total - bad_sectors.length)
    (h2 : l2 < total - bad_sectors.length) (hlt : l1 < l2) :
    Taws.translate_sector bad_sectors l1 < total ∧
      Taws.translate_sector bad_sectors l2 < total ∧
      Taws.translate_sector bad_sectors l1 < Taws.translate_sector bad_sectors l2 := by
  refine ⟨?_, ?_, Taws.translate_sector_strictMono bad_sectors l1 l2 hlt⟩
  · have := Taws.translate_sector_le bad_sectors l1
    omega
  · have := Taws.translate_sector_le bad_sectors l2
    omega

/-- Witness for C7 at `B = [1, 3]`, `total = 6`, `l1 = 0`, `l2 = 1`. -/
theorem taws_translate_sector_range_and_mono_witness :
    List.Pairwise (· < ·) [1, 3] ∧ (∀ x ∈ [1, 3], x < 6) ∧
      (0 < 6 - ([1, 3] : List Nat).length) ∧ (1 < 6 - ([1, 3] : List Nat).length) ∧
      (Taws.translate_sector [1, 3] 0 < 6 ∧ Taws.translate_sector [1, 3] 1 < 6 ∧
        Taws.translate_sector [1, 3] 0 < Taws.translate_sector [1, 3] 1) :=
  ⟨by decide, by decide, by decide, by decide,
   taws_translate_sector_range_and_mono [1, 3] 6 (by decide) (by decide) 0 1
     (by decide) (by decide) (by decide)⟩

set_option maxRecDepth 10000 in
/-- C9: every NavData entry of the IID table has
`sectors_per_chip ∈ {0x10, 0x20, 0x40}`, and for 2 to 4 chips every logical
sector id below `chips * sectors_per_chip` translates to a physical sector in
`[0, 0xFFFF]`, so `select_sector` never hits the `Invalid sector ID` branch of
`select_physical_sector`. -/
theorem skybound_translate_sector_in_range
    (manufacturer_id chip_id : Nat) (card_type : Skybound.DataCardType)
    (sectors_per_chip : Nat) (card_info : String)
    (hmem : ((manufacturer_id, chip_id), (card_type, sectors_per_chip, card_info)) ∈
      Skybound.IID_MAP)
    (hnav : card_type = Skybound.DataCardType.NAVDATA)
    (chips : Nat) (hchips2 : 2 ≤ chips) (hchips4 : chips ≤ 4)
    (sector_id : Nat) (hsid : sector_id < chips * sectors_per_chip) :
    Skybound.translate_sector sectors_per_chip sector_id ≤ 0xFFFF ∧
      (Skybound.select_sector sectors_per_chip sector_id).isSome := by
  subst hnav
  have hspc : sectors_per_chip = 0x10 ∨ sectors_per_chip = 0x20 ∨
      sectors_per_chip = 0x40 := by
    simp only [Skybound.IID_MAP, List.mem_cons, List.not_mem_nil, or_false,
      Prod.mk.injEq] at hmem
    rcases hmem with h|h|h|h|h|h|h|h <;> simp_all
  have hall : ∀ spc ∈ [0x10, 0x20, 0x40], ∀ s < 4 * spc,
      Skybound.translate_sector spc s ≤ 0xFFFF ∧
        (Skybound.select_sector spc s).isSome := by decide
  have hs4 : sector_id < 4 * sectors_per_chip := by
    have : chips * sectors_per_chip ≤ 4 * sectors_per_chip :=
      Nat.mul_le_mul_right _ hchips4
    omega
  rcases hspc with h|h|h <;> subst h
  · exact hall 0x10 (by decide) sector_id hs4
  · exact hall 0x20 (by decide) sector_id hs4
  · exact hall 0x40 (by decide) sector_id hs4

/-- Witness for C9 at the white-label 1 MiB-chip entry with 2 chips and
logical sector 0. -/
theorem skybound_translate_sector_in_range_witness :
    (((0x89, 0xa2), (Skybound.DataCardType.NAVDATA, 0x10, "non-WAAS (white)")) ∈
        Skybound.IID_MAP) ∧ 2 ≤ 2 ∧ 2 ≤ 4 ∧ 0 < 2 * 0x10 ∧
      (Skybound.translate_sector 0x10 0 ≤ 0xFFFF ∧
        (Skybound.select_sector 0x10 0).isSome) :=
  ⟨by unfold Skybound.IID_MAP; exact List.mem_cons_self _ _, by decide, by decide, by decide,
   skybound_translate_sector_in_range 0x89 0xa2 Skybound.DataCardType.NAVDATA
     0x10 "non-WAAS (white)"
     (by unfold Skybound.IID_MAP; exact List.mem_cons_self _ _) rfl 2
     (by decide) (by decide) 0 (by decide)⟩

namespace Checksum

@[simp]
theorem length_toBytesLe4 (v : Nat) : (toBytesLe4 v).length = 4 := rfl

@[simp]
theorem length_toBytesLe2 (v : Nat) : (toBytesLe2 v).length = 2 := rfl

@[simp]
theorem length_toBytesBe4 (v : Nat) : (toBytesBe4 v).length = 4 := rfl

end Checksum

namespace FeatUnlk

theorem content1_length (isNav : Bool) (security_id vol_id checksum bit : Nat)
    (preview : List Nat) (hprev : isNav = true → preview.length = 17) :
    (content1 isNav security_id vol_id checksum bit preview).length = 85 := by
  cases isNav with
  | false =>
    simp [content1, content1_body, NAVIGATION_PREVIEW_END, NAVIGATION_PREVIEW_START,
      CONTENT1_LEN]
  | true =>
    have hp := hprev rfl
    simp [content1, content1_body, NAVIGATION_PREVIEW_END, NAVIGATION_PREVIEW_START,
      CONTENT1_LEN, hp]

theorem content2_length (system_id : Nat) : (content2 system_id).length = 824 := by
  simp only [content2, content2_body, CONTENT2_LEN, List.length_append,
    List.length_replicate, Checksum.length_toBytesLe4, Checksum.length_toBytesLe2]

theorem content1_checksum_zero (isNav : Bool)
    (security_id vol_id checksum bit : Nat) (preview : List Nat) :
    Checksum.feat_unlk_checksum
      (content1 isNav security_id vol_id checksum bit preview) 0xFFFFFFFF = 0 :=
  Checksum.feat_unlk_closure _ 0xFFFFFFFF (by norm_num)

theorem content2_checksum_zero (system_id : Nat) :
    Checksum.feat_unlk_checksum (content2 system_id) 0xFFFFFFFF = 0 :=
  Checksum.feat_unlk_closure _ 0xFFFFFFFF (by norm_num)

/-- The overall CRC, computed over `content1 + content2` from seed
`0xFFFFFFFF`, equals the checksum of content-2 alone from seed 0, because
content-1 is self-checksummed to zero. -/
theorem overall_crc_eq (c1 c2 : List Nat)
    (h1 : Checksum.feat_unlk_checksum c1 0xFFFFFFFF = 0) :
    overall_crc c1 c2 = Checksum.feat_unlk_checksum c2 0 := by
  rw [overall_crc, Checksum.feat_unlk_append, h1]

end FeatUnlk

/-- C6: every feature slot written by `update_feat_unlk` verifies as the
display path requires: the 85-byte content-1 has feat-unlk checksum 0 (seed
0xFFFFFFFF), the 824-byte content-2 has feat-unlk checksum 0 (seed
0xFFFFFFFF), and content-2 followed by the final 4-byte overall CRC has
feat-unlk checksum 0 when seeded with 0 — even though the writer computes the
overall CRC over content1 + content2 with seed 0xFFFFFFFF (content-1 is
self-checksummed to zero, which reconciles the two). -/
theorem featunlk_slot_verifies (isNav : Bool)
    (security_id vol_id system_id checksum bit : Nat) (preview : List Nat)
    (hprev : isNav = true → preview.length = 17) :
    (FeatUnlk.content1 isNav security_id vol_id checksum bit preview).length = 85 ∧
      Checksum.feat_unlk_checksum
        (FeatUnlk.content1 isNav security_id vol_id checksum bit preview)
        0xFFFFFFFF = 0 ∧
      (FeatUnlk.content2 system_id).length = 824 ∧
      Checksum.feat_unlk_checksum (FeatUnlk.content2 system_id) 0xFFFFFFFF = 0 ∧
      Checksum.feat_unlk_checksum
        (FeatUnlk.content2 system_id ++
          Checksum.toBytesLe4
            (FeatUnlk.overall_crc
              (FeatUnlk.content1 isNav security_id vol_id checksum bit preview)
              (FeatUnlk.content2 system_id))) 0 = 0 := by
  refine ⟨FeatUnlk.content1_length _ _ _ _ _ _ hprev,
    FeatUnlk.content1_checksum_zero _ _ _ _ _ _,
    FeatUnlk.content2_length _,
    FeatUnlk.content2_checksum_zero _, ?_⟩
  rw [FeatUnlk.overall_crc_eq _ _ (FeatUnlk.content1_checksum_zero _ _ _ _ _ _)]
  exact Checksum.feat_unlk_closure _ 0 (by norm_num)

namespace FeatUnlk

theorem writeAt_prefix_ab_length (file : List Nat) (offset : Nat) :
    (file.take offset ++ List.replicate (offset - file.length) (0 : Nat)).length
      = offset := by
  simp [List.length_append, List.length_take]
  omega

theorem writeAt_getElem?_outside (file data : List Nat) (offset i : Nat)
    (hi : i < file.length) (hout : i < offset ∨ offset + data.length ≤ i) :
    (writeAt file offset data)[i]? = file[i]? := by
  unfold writeAt
  have hAB := writeAt_prefix_ab_length file offset
  have hABC : ((file.take offset ++ List.replicate (offset - file.length) 0) ++
      data).length = offset + data.length := by
    simp [List.length_append, List.length_take]
    omega
  rcases hout with hlt | hge
  · rw [List.getElem?_append_left (by omega)]
    rw [List.getElem?_append_left (by omega)]
    rw [List.getElem?_append_left (by
      rw [List.length_take]
      omega)]
    rw [List.getElem?_take]
    simp [hlt]
  · rw [List.getElem?_append_right (by omega)]
    rw [List.getElem?_drop]
    rw [hABC]
    congr 1
    omega

theorem writeAt_getElem?_data (file data : List Nat) (offset i : Nat)
    (hi : i < data.length) :
    (writeAt file offset data)[offset + i]? = data[i]? := by
  unfold writeAt
  have hAB := writeAt_prefix_ab_length file offset
  have hABC : ((file.take offset ++ List.replicate (offset - file.length) 0) ++
      data).length = offset + data.length := by
    simp [List.length_append, List.length_take]
    omega
  rw [List.getElem?_append_left (by omega)]
  rw [List.getElem?_append_right (by omega)]
  rw [hAB]
  congr 1
  omega

end FeatUnlk

namespace FeatUnlk

theorem update_feat_unlk_slot_length (isNav : Bool)
    (security_id vol_id system_id checksum bit : Nat) (preview : List Nat)
    (hprev : isNav = true → preview.length = 17) :
    (update_feat_unlk_slot isNav security_id vol_id system_id checksum bit
      preview).length = 913 := by
  simp only [update_feat_unlk_slot, List.length_append,
    content1_length isNav security_id vol_id checksum bit preview hprev,
    content2_length, Checksum.length_toBytesLe4]

end FeatUnlk

/-- C10: `update_feat_unlk` writes exactly a 913-byte slot (85-byte content-1,
824-byte content-2, 4-byte overall CRC) at the feature's offset, leaves every
other byte of `feat_unlk.dat` unchanged, and any two distinct feature offsets
are at least 913 apart, so updating one feature never alters another's slot. -/
theorem update_feat_unlk_frame_effect (file : List Nat) (offset : Nat)
    (isNav : Bool) (security_id vol_id system_id checksum bit : Nat)
    (preview : List Nat) (hprev : isNav = true → preview.length = 17) :
    (FeatUnlk.update_feat_unlk_slot isNav security_id vol_id system_id checksum
        bit preview).length = 913 ∧
      (∀ i, i < file.length → (i < offset ∨ offset + 913 ≤ i) →
        (FeatUnlk.update_feat_unlk file offset isNav security_id vol_id system_id
            checksum bit preview).getD i 0 = file.getD i 0) ∧
      (∀ i, i < 913 →
        (FeatUnlk.update_feat_unlk file offset isNav security_id vol_id system_id
            checksum bit preview).getD (offset + i) 0 =
          (FeatUnlk.update_feat_unlk_slot isNav security_id vol_id system_id
            checksum bit preview).getD i 0) ∧
      List.Pairwise (fun a b => a + 913 ≤ b) FeatUnlk.FEATURE_OFFSETS := by
  have hslot := FeatUnlk.update_feat_unlk_slot_length isNav security_id vol_id
    system_id checksum bit preview hprev
  refine ⟨hslot, ?_, ?_, by decide⟩
  · intro i hi hout
    rw [FeatUnlk.update_feat_unlk, List.getD_eq_getElem?_getD,
      List.getD_eq_getElem?_getD,
      FeatUnlk.writeAt_getElem?_outside _ _ _ _ hi (by rw [hslot]; exact hout)]
  · intro i hi
    rw [FeatUnlk.update_feat_unlk, List.getD_eq_getElem?_getD,
      List.getD_eq_getElem?_getD,
      FeatUnlk.writeAt_getElem?_data _ _ _ _ (by rw [hslot]; exact hi)]

/-- Witness for C10 at a 3-byte file, offset 913 (`CONFIG_ENABLE`), a
Navigation-style slot with a concrete 17-byte preview. -/
theorem update_feat_unlk_frame_effect_witness :
    (true = true → (List.replicate 17 2).length = 17) ∧
      ((FeatUnlk.update_feat_unlk_slot true 0 0 0 0 0
          (List.replicate 17 2)).length = 913 ∧
        (∀ i, i < (List.replicate 3 1 : List Nat).length → (i < 913 ∨ 913 + 913 ≤ i) →
          (FeatUnlk.update_feat_unlk (List.replicate 3 1) 913 true 0 0 0 0 0
              (List.replicate 17 2)).getD i 0 = (List.replicate 3 1 : List Nat).getD i 0) ∧
        (∀ i, i < 913 →
          (FeatUnlk.update_feat_unlk (List.replicate 3 1) 913 true 0 0 0 0 0
              (List.replicate 17 2)).getD (913 + i) 0 =
            (FeatUnlk.update_feat_unlk_slot true 0 0 0 0 0
              (List.replicate 17 2)).getD i 0) ∧
        List.Pairwise (fun a b => a + 913 ≤ b) FeatUnlk.FEATURE_OFFSETS) :=
  ⟨fun _ => by decide,
   update_feat_unlk_frame_effect (List.replicate 3 1) 913 true 0 0 0 0 0
     (List.replicate 17 2) (fun _ => by decide)⟩

/-- Witness for C6 at a non-Navigation slot with all-zero parameters. -/
theorem featunlk_slot_verifies_witness :
    (false = true → (List.replicate 17 0).length = 17) ∧
      ((FeatUnlk.content1 false 0 0 0 0 (List.replicate 17 0)).length = 85 ∧
        Checksum.feat_unlk_checksum
          (FeatUnlk.content1 false 0 0 0 0 (List.replicate 17 0)) 0xFFFFFFFF = 0 ∧
        (FeatUnlk.content2 0).length = 824 ∧
        Checksum.feat_unlk_checksum (FeatUnlk.content2 0) 0xFFFFFFFF = 0 ∧
        Checksum.feat_unlk_checksum
          (FeatUnlk.content2 0 ++
            Checksum.toBytesLe4
              (FeatUnlk.overall_crc
                (FeatUnlk.content1 false 0 0 0 0 (List.replicate 17 0))
                (FeatUnlk.content2 0))) 0 = 0) :=
  ⟨fun h => absurd h (by decide),
   featunlk_slot_verifies false 0 0 0 0 0 (List.replicate 17 0)
     (fun h => absurd h (by decide))⟩

/-- C8 counterexample: the emitted `.dsf` stream does not end with the
little-endian encoding of `0x03040506` (which would be `06 05 04 03`). Shown
on the empty 1.05 SFX file: the last four bytes are `03 04 05 06`. -/
theorem sfx_footer_le_counterexample :
    (Avidyne.SFXFile.run ⟨[0x31, 0x2E, 0x30, 0x35], []⟩ (fun _ => [])
        (fun _ => []) ⟨[], 0, 0, []⟩).drop
          ((Avidyne.SFXFile.run ⟨[0x31, 0x2E, 0x30, 0x35], []⟩ (fun _ => [])
            (fun _ => []) ⟨[], 0, 0, []⟩).length - 4) ≠
      Checksum.toBytesLe4 Avidyne.MAGIC_FOOTER := by decide

/-- C8 (amended): `SFXFile.run` terminates the emitted `.dsf` stream with the
footer magic `0x03040506` encoded as a big-endian 32-bit value (`write_u32`
is big-endian), i.e. the byte sequence `03 04 05 06`. -/
theorem sfx_run_ends_with_footer_be (sfx : Avidyne.SFXFile)
    (zf compress : List Nat → List Nat) (sctx : Avidyne.SecurityContext) :
    Avidyne.write_u32 Avidyne.MAGIC_FOOTER = [0x03, 0x04, 0x05, 0x06] ∧
      ∃ p, Avidyne.SFXFile.run sfx zf compress sctx =
          p ++ [0x03, 0x04, 0x05, 0x06] ∧
        (Avidyne.SFXFile.run sfx zf compress sctx).drop
          ((Avidyne.SFXFile.run sfx zf compress sctx).length - 4) =
            [0x03, 0x04, 0x05, 0x06] := by
  have h : Avidyne.SFXFile.run sfx zf compress sctx =
      (Avidyne.MAGIC_HEADER ++ sfx.version ++
        Avidyne.write_u32 sfx.sections.length ++
        Avidyne.run_sections (sfx.version = Avidyne.VERSION_3_09) zf compress
          sctx sfx.sections true sctx.fleet_ids) ++
        [0x03, 0x04, 0x05, 0x06] := rfl
  refine ⟨by decide, _, h, ?_⟩
  rw [h, List.length_append]
  rw [show (([0x03, 0x04, 0x05, 0x06] : List Nat)).length = 4 from rfl]
  rw [show (Avidyne.MAGIC_HEADER ++ sfx.version ++
      Avidyne.write_u32 sfx.sections.length ++
      Avidyne.run_sections (sfx.version = Avidyne.VERSION_3_09) zf compress
        sctx sfx.sections true sctx.fleet_ids).length + 4 - 4 =
      (Avidyne.MAGIC_HEADER ++ sfx.version ++
      Avidyne.write_u32 sfx.sections.length ++
      Avidyne.run_sections (sfx.version = Avidyne.VERSION_3_09) zf compress
        sctx sfx.sections true sctx.fleet_ids).length by omega]
  exact List.drop_left _ _

namespace Dbf

theorem readValue_writeValue (f : DbfField) (chunk : List Nat)
    (h : canonicalChunk f chunk) :
    ∃ v data, readValue f.type chunk = some v ∧
      writeValue f.type v = some data ∧
      data ++ List.replicate (f.length - data.length) 32 = chunk := by
  obtain ⟨hlen, hform, htype⟩ := h
  by_cases hC : f.type = 'C'
  · refine ⟨.text (stripSpaces chunk), stripSpaces chunk, ?_, ?_, hform.symm⟩
    · simp [readValue, hC]
    · simp [writeValue, hC]
  by_cases hD : f.type = 'D'
  · simp only [hC, if_false, hD, if_true] at htype
    rcases htype with hempty | hdate
    · refine ⟨.date none, [], ?_, ?_, ?_⟩
      · simp [readValue, hC, hD, hempty]
      · simp [writeValue, hC, hD]
      · simpa [hempty] using hform.symm
    · rcases hp : parseDate (stripSpaces chunk) with _ | ⟨⟨y, m, d⟩⟩
      · simp [hp] at hdate
      · rw [hp] at hdate
        simp only [Option.map_some', Option.some.injEq] at hdate
        have hne : stripSpaces chunk ≠ [] := by
          intro he; rw [he] at hp; simp [parseDate] at hp
        refine ⟨.date (some (y, m, d)), stripSpaces chunk, ?_, ?_, hform.symm⟩
        · simp [readValue, hC, hD, hne, hp]
        · simp [writeValue, hC, hD, hdate]
  by_cases hL : f.type = 'L'
  · simp only [hC, if_false, hD, hL, if_true] at htype
    rcases htype with h84 | h70 | h63
    · refine ⟨.logical (some true), [84], ?_, ?_, ?_⟩
      · simp [readValue, hC, hD, hL, h84]
      · simp [writeValue, hC, hD, hL]
      · rw [← h84]; exact hform.symm
    · refine ⟨.logical (some false), [70], ?_, ?_, ?_⟩
      · simp [readValue, hC, hD, hL, h70]
      · simp [writeValue, hC, hD, hL]
      · rw [← h70]; exact hform.symm
    · refine ⟨.logical none, [63], ?_, ?_, ?_⟩
      · simp [readValue, hC, hD, hL, h63]
      · simp [writeValue, hC, hD, hL]
      · rw [← h63]; exact hform.symm
  by_cases hM : f.type = 'M'
  · simp only [hC, if_false, hD, hL, hM, if_true] at htype
    rcases htype with hempty | hint
    · refine ⟨.intval none, [], ?_, ?_, ?_⟩
      · simp [readValue, hC, hD, hL, hM, hempty]
      · simp [writeValue, hC, hD, hL, hM]
      · simpa [hempty] using hform.symm
    · rcases hp : parseInt (stripSpaces chunk) with _ | n
      · simp [hp] at hint
      · rw [hp] at hint
        simp only [Option.map_some', Option.some.injEq] at hint
        have hne : stripSpaces chunk ≠ [] := by
          intro he; rw [he] at hp; simp [parseInt, parseDigits] at hp
        refine ⟨.intval (some n), stripSpaces chunk, ?_, ?_, hform.symm⟩
        · simp [readValue, hC, hD, hL, hM, hne, hp]
        · simp [writeValue, hC, hD, hL, hM, hint]
  · simp only [hC, if_false, hD, hL, hM] at htype

end Dbf

namespace Dbf

theorem read_write_fields_roundtrip :
    ∀ (fields : List DbfField) (chunks : List (List Nat)),
      fields.length = chunks.length →
      (∀ p ∈ fields.zip chunks, canonicalChunk p.1 p.2) →
      ∃ values, read_fields fields chunks.flatten = some values ∧
        write_fields (fields.zip values) = some chunks.flatten := by
  intro fields
  induction fields with
  | nil =>
    intro chunks hlen _
    have : chunks = [] := by
      cases chunks with
      | nil => rfl
      | cons c cs => simp at hlen
    subst this
    exact ⟨[], rfl, rfl⟩
  | cons f fs ih =>
    intro chunks hlen hcanon
    cases chunks with
    | nil => simp at hlen
    | cons c cs =>
      have hc : canonicalChunk f c := hcanon (f, c) (by simp)
      have hclen : c.length = f.length := hc.1
      obtain ⟨v, data, hread, hwrite, hpad⟩ := readValue_writeValue f c hc
      obtain ⟨vs, hreads, hwrites⟩ := ih cs (by simpa using hlen)
        (fun p hp => hcanon p (by simp [hp]))
      refine ⟨v :: vs, ?_, ?_⟩
      · rw [read_fields, List.flatten_cons]
        rw [show (c ++ cs.flatten).take f.length = c by
          rw [← hclen]; exact List.take_left _ _]
        rw [show (c ++ cs.flatten).drop f.length = cs.flatten by
          rw [← hclen]; exact List.drop_left _ _]
        rw [hread, hreads]
        rfl
      · rw [List.zip_cons_cons, write_fields, hwrite, hwrites]
        simp only [Option.bind_some, Option.pure_def]
        rw [List.flatten_cons, ← hpad]
        rfl

end Dbf

/-- C4 counterexample: `read_record` trims spaces on both sides of a `C`
field, not only on the right: the record `" ␣a"` (deletion marker, then the
two-byte C value `" a"`) reads as `"a"` and writes back as `" a␣"`, so
`write ∘ read` is not the identity on it. -/
theorem dbf_left_trim_counterexample :
    Dbf.read_record [⟨[], 'C', 2⟩] [32, 32, 97] =
        some [Dbf.DbfValue.text [97]] ∧
      Dbf.write_record [⟨[], 'C', 2⟩] [Dbf.DbfValue.text [97]] =
        some [32, 97, 32] ∧
      ([32, 97, 32] : List Nat) ≠ [32, 32, 97] := by decide

/-- C4 (amended): reading a well-formed record whose fields all have
supported types C, D, L, or M and whose field contents are in canonical form
(left-justified; dates as written by `strftime`, logicals `T`/`F`/`?`, memo
values as canonical decimals) and writing the values back reproduces the
record bytes exactly. `C` values are space-trimmed on BOTH sides on read and
left-justified on write. -/
theorem dbf_record_roundtrip (fields : List Dbf.DbfField)
    (chunks : List (List Nat)) (hlen : fields.length = chunks.length)
    (hcanon : ∀ p ∈ fields.zip chunks, Dbf.canonicalChunk p.1 p.2) :
    ∃ values,
      Dbf.read_record fields (32 :: chunks.flatten) = some values ∧
        Dbf.write_record fields values = some (32 :: chunks.flatten) := by
  obtain ⟨values, hr, hw⟩ := Dbf.read_write_fields_roundtrip fields chunks hlen hcanon
  refine ⟨values, ?_, ?_⟩
  · rw [Dbf.read_record]
    simp only [if_pos rfl]
    exact hr
  · rw [Dbf.write_record, hw]
    rfl

/-- Witness for C4 at a four-field record: C `"ab "`, D `"20200229"`, L `"T"`,
M `"-5  "`. -/
theorem dbf_record_roundtrip_witness :
    (([⟨[], 'C', 3⟩, ⟨[], 'D', 8⟩, ⟨[], 'L', 1⟩, ⟨[], 'M', 4⟩] :
        List Dbf.DbfField).length = ([[97, 98, 32],
          [50, 48, 50, 48, 48, 50, 50, 57], [84], [45, 53, 32, 32]] :
          List (List Nat)).length) ∧
      (∀ p ∈ ([⟨[], 'C', 3⟩, ⟨[], 'D', 8⟩, ⟨[], 'L', 1⟩, ⟨[], 'M', 4⟩] :
          List Dbf.DbfField).zip [[97, 98, 32],
            [50, 48, 50, 48, 48, 50, 50, 57], [84], [45, 53, 32, 32]],
        Dbf.canonicalChunk p.1 p.2) ∧
      (∃ values,
        Dbf.read_record [⟨[], 'C', 3⟩, ⟨[], 'D', 8⟩, ⟨[], 'L', 1⟩, ⟨[], 'M', 4⟩]
            (32 :: ([[97, 98, 32], [50, 48, 50, 48, 48, 50, 50, 57], [84],
              [45, 53, 32, 32]] : List (List Nat)).flatten) = some values ∧
          Dbf.write_record
            [⟨[], 'C', 3⟩, ⟨[], 'D', 8⟩, ⟨[], 'L', 1⟩, ⟨[], 'M', 4⟩] values =
            some (32 :: ([[97, 98, 32], [50, 48, 50, 48, 48, 50, 50, 57], [84],
              [45, 53, 32, 32]] : List (List Nat)).flatten)) :=
  ⟨by decide, by decide,
   dbf_record_roundtrip _ _ (by decide) (by decide)⟩

namespace ChartView

theorem fromLe_toLe4 (v : Nat) :
    Taws.fromLeBytes (Checksum.toBytesLe4 v) = v % 0x100000000 := by
  simp only [Taws.fromLeBytes, Checksum.toBytesLe4, List.foldr_cons, List.foldr_nil,
    and_mask_255, Nat.shiftRight_eq_div_pow]
  omega

theorem header_to_bytes_length (h : ChartHeader) : h.to_bytes.length = 27 := by
  simp [ChartHeader.to_bytes, List.length_append, List.length_take]
  omega

theorem record_to_bytes_length (r : ChartRecord) : r.to_bytes.length = 40 := by
  simp [ChartRecord.to_bytes, List.length_append, List.length_take]
  omega

theorem record_bytes_length (rs : List ChartRecord) :
    ((rs.map ChartRecord.to_bytes).flatten).length = 40 * rs.length := by
  induction rs with
  | nil => simp
  | cons r rest ih =>
    simp [List.flatten_cons, record_to_bytes_length, ih]
    ring

theorem lexLe_total (a b : List Nat) : lexLe a b || lexLe b a := by
  induction a generalizing b with
  | nil => simp [lexLe]
  | cons x xs ih =>
    cases b with
    | nil => simp [lexLe]
    | cons y ys =>
      by_cases hxy : x < y
      · simp [lexLe, hxy]
      · by_cases heq : x = y
        · subst heq
          simp only [lexLe, Nat.lt_irrefl, if_false, if_pos rfl]
          exact ih ys
        · have hyx : y < x := by omega
          simp [lexLe, hxy, heq, hyx]

theorem lexLe_trans (a b c : List Nat) (hab : lexLe a b = true)
    (hbc : lexLe b c = true) : lexLe a c = true := by
  induction a generalizing b c with
  | nil => simp [lexLe]
  | cons x xs ih =>
    cases b with
    | nil => simp [lexLe] at hab
    | cons y ys =>
      cases c with
      | nil => simp [lexLe] at hbc
      | cons z zs =>
        simp only [lexLe] at hab hbc ⊢
        by_cases hxy : x < y
        · by_cases hyz : y < z
          · simp [show x < z by omega]
          · by_cases hyzeq : y = z
            · subst hyzeq; simp [hxy]
            · simp [hyz, hyzeq] at hbc
        · by_cases hxyeq : x = y
          · subst hxyeq
            simp only [hxy, if_false, if_pos rfl] at hab
            by_cases hyz : x < z
            · simp [hyz]
            · by_cases hyzeq : x = z
              · subst hyzeq
                simp only [Nat.lt_irrefl, if_false, if_pos rfl] at hbc ⊢
                exact ih ys zs hab hbc
              · simp [hyz, hyzeq] at hbc
          · simp [hxy, hxyeq] at hab

theorem contiguousFrom_append (a b : List ChartRecord) :
    ∀ t, contiguousFrom t a → contiguousFrom (t + sizes_sum a) b →
      contiguousFrom t (a ++ b) := by
  induction a with
  | nil =>
    intro t _ hb
    simpa [sizes_sum] using hb
  | cons r rest ih =>
    intro t ha hb
    obtain ⟨hoff, hrest⟩ := ha
    refine ⟨hoff, ih (t + r.size) hrest ?_⟩
    have : t + r.size + sizes_sum rest = t + sizes_sum (r :: rest) := by
      simp [sizes_sum]
      omega
    rw [this]
    exact hb

end ChartView

namespace ChartView

theorem mapM_length {α β : Type} (l : List α) (f : α → Option β) :
    ∀ res, l.mapM f = some res → res.length = l.length := by
  induction l with
  | nil =>
    intro res h
    simp [List.mapM, List.mapM.loop] at h
    simp [h]
  | cons a rest ih =>
    intro res h
    rw [List.mapM_cons] at h
    rcases hf : f a with _ | b
    · rw [hf] at h; simp at h
    · rw [hf] at h
      rcases hr : rest.mapM f with _ | res'
      · rw [hr] at h; simp at h
      · rw [hr] at h
        simp at h
        simp [← h, ih res' hr]

theorem mapM_map {α β γ : Type} (l : List α) (f : α → Option β) :
    ∀ (res : List β) (g : β → γ) (d : γ), l.mapM f = some res →
      res.map g = l.map (fun a => (f a).elim d g) := by
  induction l with
  | nil =>
    intro res g d h
    simp [List.mapM, List.mapM.loop] at h
    simp [h]
  | cons a rest ih =>
    intro res g d h
    rw [List.mapM_cons] at h
    rcases hf : f a with _ | b
    · rw [hf] at h; simp at h
    · rw [hf] at h
      rcases hr : rest.mapM f with _ | res'
      · rw [hr] at h; simp at h
      · rw [hr] at h
        simp at h
        simp [← h, hf, ih res' g d hr]

theorem process_records_spec (f : List Nat) :
    ∀ (records : List ChartRecord) (t : Nat),
      (∀ r ∈ records, 0 < r.size ∧ r.size < 0x1000000 ∧
        r.offset + r.size ≤ f.length) →
      ∃ rs payload, process_records f records t = some (rs, payload) ∧
        contiguousFrom t rs ∧ sizes_sum rs = sizes_sum records ∧
        payload.length = sizes_sum records ∧ rs.length = records.length := by
  intro records
  induction records with
  | nil =>
    intro t _
    exact ⟨[], [], rfl, trivial, rfl, rfl, rfl⟩
  | cons r rest ih =>
    intro t hwf
    obtain ⟨hpos, hlt, hbound⟩ := hwf r (by simp)
    obtain ⟨rs, payload, heq, hcont, hsz, hplen, hlen⟩ :=
      ih (t + r.size) (fun x hx => hwf x (by simp [hx]))
    refine ⟨{ r with offset := t } :: rs, (f.drop r.offset).take r.size ++ payload,
      ?_, ⟨rfl, hcont⟩, ?_, ?_, ?_⟩
    · rw [process_records, if_pos ⟨hpos, hlt⟩, heq]
      rfl
    · simp [sizes_sum] at hsz ⊢
      omega
    · have hctlen : ((f.drop r.offset).take r.size).length = r.size := by
        simp [List.length_take, List.length_drop]
        omega
      simp [List.length_append, hctlen, hplen, sizes_sum]
    · simp [hlen]

end ChartView

namespace ChartView

theorem sizes_sum_append (a b : List ChartRecord) :
    sizes_sum (a ++ b) = sizes_sum a + sizes_sum b := by
  simp [sizes_sum]

theorem process_input_spec (inp : List Nat × List Nat) (t : Nat)
    (hwf : WellFormedInput inp) :
    ∃ h recs payload, process_input inp t = some (h, recs, payload) ∧
      ChartHeader.from_bytes (inp.2.take 27) = some h ∧
      contiguousFrom t recs ∧
      sizes_sum recs + SIZE = h.index_offset ∧
      payload.length = sizes_sum recs ∧
      recs.length = h.num_files := by
  obtain ⟨h, records, hh, hrecs, hname, hidx, hrwf⟩ := hwf
  obtain ⟨cn, hcn⟩ := Option.isSome_iff_exists.mp hname
  obtain ⟨rs, payload, heq, hcont, hsz, hplen, hlen⟩ :=
    process_records_spec inp.2 records t hrwf
  have hreclen : records.length = h.num_files := by
    have := mapM_length _ _ _ hrecs
    simpa using this
  refine ⟨h, rs, payload, ?_, hh, hcont, ?_, ?_, ?_⟩
  · simp [process_input, hh, hrecs, hcn, heq]
  · omega
  · omega
  · omega

theorem process_inputs_spec :
    ∀ (inputs : List (List Nat × List Nat)) (t : Nat),
      (∀ inp ∈ inputs, WellFormedInput inp) →
      ∃ all payload, process_inputs inputs t = some (all, payload) ∧
        contiguousFrom t all ∧
        payload.length = sizes_sum all ∧
        all.length = (inputs.map inputNumFiles).sum ∧
        sizes_sum all =
          (inputs.map (fun inp => inputIndexOffset inp - SIZE)).sum := by
  intro inputs
  induction inputs with
  | nil =>
    intro t _
    exact ⟨[], [], rfl, trivial, rfl, rfl, rfl⟩
  | cons inp rest ih =>
    intro t hwf
    obtain ⟨h, recs, payload, heq, hh, hcont, hidx, hplen, hlen⟩ :=
      process_input_spec inp t (hwf inp (by simp))
    obtain ⟨all, payload2, heq2, hcont2, hplen2, hlen2, hsz2⟩ :=
      ih (t + sizes_sum recs) (fun x hx => hwf x (by simp [hx]))
    refine ⟨recs ++ all, payload ++ payload2, ?_, ?_, ?_, ?_, ?_⟩
    · simp [process_inputs, heq, heq2]
    · exact contiguousFrom_append recs all t hcont hcont2
    · simp [List.length_append, hplen, hplen2, sizes_sum_append]
    · simp only [List.map_cons, List.sum_cons, List.length_append, hlen2]
      have : inputNumFiles inp = h.num_files := by
        simp [inputNumFiles, hh]
      omega
    · simp only [List.map_cons, List.sum_cons, sizes_sum_append, hsz2]
      have : inputIndexOffset inp = h.index_offset := by
        simp [inputIndexOffset, hh]
      omega

end ChartView

namespace ChartView

theorem mapM_some_of_forall {α β : Type} (l : List α) (f : α → Option β)
    (h : ∀ a ∈ l, (f a).isSome) : ∃ res, l.mapM f = some res := by
  induction l with
  | nil => exact ⟨[], rfl⟩
  | cons a rest ih =>
    obtain ⟨b, hb⟩ := Option.isSome_iff_exists.mp (h a (by simp))
    obtain ⟨res, hres⟩ := ih (fun x hx => h x (by simp [hx]))
    exact ⟨b :: res, by rw [List.mapM_cons, hb, hres]; rfl⟩

theorem drop_peel (a rest : List Nat) (k n : Nat) (h : n = a.length + k) :
    (a ++ rest).drop n = rest.drop k := by
  subst h
  exact List.drop_append k

theorem merged_output_fields (crc tf idx : Nat) (date payload recbytes : List Nat) :
    Taws.fromLeBytes (((Checksum.toBytesLe4 crc ++
          ((ChartHeader.mk 0 tf idx date).to_bytes.drop 4 ++ payload ++
            recbytes)).drop 8).take 4) = tf % 0x100000000 ∧
      Taws.fromLeBytes (((Checksum.toBytesLe4 crc ++
          ((ChartHeader.mk 0 tf idx date).to_bytes.drop 4 ++ payload ++
            recbytes)).drop 12).take 4) = idx % 0x100000000 ∧
      (Checksum.toBytesLe4 crc ++
          ((ChartHeader.mk 0 tf idx date).to_bytes.drop 4 ++ payload ++
            recbytes)).drop (SIZE + payload.length) = recbytes ∧
      (Checksum.toBytesLe4 crc ++
          ((ChartHeader.mk 0 tf idx date).to_bytes.drop 4 ++ payload ++
            recbytes)).length = SIZE + payload.length + recbytes.length := by
  have hd11 : (date.take 11 ++ List.replicate (11 - date.length) 0).length = 11 := by
    simp [List.length_take]
    omega
  have hdrop4 : (ChartHeader.mk 0 tf idx date).to_bytes.drop 4 =
      Checksum.toBytesLe4 MAGIC ++ (Checksum.toBytesLe4 tf ++
        (Checksum.toBytesLe4 idx ++
          (date.take 11 ++ List.replicate (11 - date.length) 0))) := by
    simp [ChartHeader.to_bytes, Checksum.toBytesLe4]
  have hform : Checksum.toBytesLe4 crc ++
      ((ChartHeader.mk 0 tf idx date).to_bytes.drop 4 ++ payload ++ recbytes) =
      Checksum.toBytesLe4 crc ++ (Checksum.toBytesLe4 MAGIC ++
        (Checksum.toBytesLe4 tf ++ (Checksum.toBytesLe4 idx ++
          ((date.take 11 ++ List.replicate (11 - date.length) 0) ++
            (payload ++ recbytes))))) := by
    rw [hdrop4]
    simp [List.append_assoc]
  refine ⟨?_, ?_, ?_, ?_⟩
  · rw [hform,
      drop_peel _ _ 4 8 (by simp),
      drop_peel _ _ 0 4 (by simp),
      List.drop_zero,
      List.take_left' (Checksum.length_toBytesLe4 tf),
      fromLe_toLe4]
  · rw [hform,
      drop_peel _ _ 8 12 (by simp),
      drop_peel _ _ 4 8 (by simp),
      drop_peel _ _ 0 4 (by simp),
      List.drop_zero,
      List.take_left' (Checksum.length_toBytesLe4 idx),
      fromLe_toLe4]
  · rw [hform,
      drop_peel _ _ (23 + payload.length) (SIZE + payload.length)
        (by simp [SIZE]; omega),
      drop_peel _ _ (19 + payload.length) (23 + payload.length) (by simp; omega),
      drop_peel _ _ (15 + payload.length) (19 + payload.length) (by simp; omega),
      drop_peel _ _ (11 + payload.length) (15 + payload.length) (by simp; omega),
      drop_peel _ _ payload.length (11 + payload.length) (by rw [hd11]),
      drop_peel _ _ 0 payload.length (by simp),
      List.drop_zero]
  · rw [hform]
    simp [List.length_append, hd11, SIZE]
    omega

end ChartView

/-- C5: for well-formed input `charts.bin` files the merged output has
`num_files` equal to the sum of the inputs' `num_files` (as the header field
at bytes 8..12), a trailing 40-byte record array sorted by record name,
rewritten record offsets tiling `[27, index_offset)` contiguously, and total
size `27 + Σ payload + 40 · Σ num_files`. -/
theorem chart_merge_invariants (inputs : List (List Nat × List Nat))
    (db_begin_date : List Nat)
    (hwf : ∀ inp ∈ inputs, ChartView.WellFormedInput inp) :
    ∃ out hdr all sorted,
      ChartView.process_charts_bin inputs db_begin_date =
          some (out, hdr, all, sorted) ∧
        hdr.num_files = (inputs.map ChartView.inputNumFiles).sum ∧
        Taws.fromLeBytes ((out.drop 8).take 4) = hdr.num_files % 0x100000000 ∧
        List.Pairwise (fun a b => ChartView.lexLe a.name b.name = true) sorted ∧
        sorted.Perm all ∧
        out.drop (ChartView.SIZE + ChartView.sizes_sum all) =
          (sorted.map ChartView.ChartRecord.to_bytes).flatten ∧
        ChartView.contiguousFrom ChartView.SIZE all ∧
        hdr.index_offset = ChartView.SIZE + ChartView.sizes_sum all ∧
        Taws.fromLeBytes ((out.drop 12).take 4) =
          hdr.index_offset % 0x100000000 ∧
        out.length = ChartView.SIZE + ChartView.sizes_sum all +
          40 * hdr.num_files := by
  obtain ⟨hs, hmapM⟩ := ChartView.mapM_some_of_forall inputs
    (fun inp => ChartView.ChartHeader.from_bytes (inp.2.take 27))
    (fun inp hin => by
      obtain ⟨h, records, hh, -, -, -, -⟩ := hwf inp hin
      simp [hh])
  obtain ⟨all, payload, hpi, hcont, hplen, hlen, hsz⟩ :=
    ChartView.process_inputs_spec inputs ChartView.SIZE hwf
  have hnum : hs.map (fun h => h.num_files) = inputs.map ChartView.inputNumFiles :=
    ChartView.mapM_map inputs _ hs (fun h => h.num_files) 0 hmapM
  have hidxm : hs.map (fun h => h.index_offset - ChartView.SIZE) =
      inputs.map (fun inp => ChartView.inputIndexOffset inp - ChartView.SIZE) := by
    rw [ChartView.mapM_map inputs _ hs
      (fun h => h.index_offset - ChartView.SIZE) 0 hmapM]
    apply List.map_congr_left
    intro inp _
    rcases hfb : ChartView.ChartHeader.from_bytes (inp.2.take 27) with _ | h'
    · simp [ChartView.inputIndexOffset, hfb]
    · simp [ChartView.inputIndexOffset, hfb]
  have hts : (hs.map (fun h => h.index_offset - ChartView.SIZE)).sum =
      ChartView.sizes_sum all := by rw [hidxm, ← hsz]
  have hfields := ChartView.merged_output_fields
    (Checksum.crc32q_checksum
      ((ChartView.ChartHeader.mk 0 ((hs.map (fun h => h.num_files)).sum)
          ((hs.map (fun h => h.index_offset - ChartView.SIZE)).sum +
            ChartView.SIZE) db_begin_date).to_bytes.drop 4 ++ payload ++
        ((all.mergeSort (fun a b => ChartView.lexLe a.name b.name)).map
          ChartView.ChartRecord.to_bytes).flatten) 0)
    ((hs.map (fun h => h.num_files)).sum)
    ((hs.map (fun h => h.index_offset - ChartView.SIZE)).sum + ChartView.SIZE)
    db_begin_date payload
    ((all.mergeSort (fun a b => ChartView.lexLe a.name b.name)).map
      ChartView.ChartRecord.to_bytes).flatten
  have hrun : ChartView.process_charts_bin inputs db_begin_date =
      some (Checksum.toBytesLe4 (Checksum.crc32q_checksum
          ((ChartView.ChartHeader.mk 0 ((hs.map (fun h => h.num_files)).sum)
              ((hs.map (fun h => h.index_offset - ChartView.SIZE)).sum +
                ChartView.SIZE) db_begin_date).to_bytes.drop 4 ++ payload ++
            ((all.mergeSort (fun a b => ChartView.lexLe a.name b.name)).map
              ChartView.ChartRecord.to_bytes).flatten) 0) ++
          ((ChartView.ChartHeader.mk 0 ((hs.map (fun h => h.num_files)).sum)
              ((hs.map (fun h => h.index_offset - ChartView.SIZE)).sum +
                ChartView.SIZE) db_begin_date).to_bytes.drop 4 ++ payload ++
            ((all.mergeSort (fun a b => ChartView.lexLe a.name b.name)).map
              ChartView.ChartRecord.to_bytes).flatten),
        ChartView.ChartHeader.mk 0 ((hs.map (fun h => h.num_files)).sum)
          ((hs.map (fun h => h.index_offset - ChartView.SIZE)).sum +
            ChartView.SIZE) db_begin_date,
        all,
        all.mergeSort (fun a b => ChartView.lexLe a.name b.name)) := by
    unfold ChartView.process_charts_bin
    rw [hmapM, hpi]
    rfl
  refine ⟨_, _, all, all.mergeSort (fun a b => ChartView.lexLe a.name b.name),
    hrun, ?_, ?_, ?_, ?_, ?_, hcont, ?_, ?_, ?_⟩
  · exact congrArg List.sum hnum
  · exact hfields.1
  · exact List.sorted_mergeSort
      (fun a b c hab hbc => ChartView.lexLe_trans a.name b.name c.name hab hbc)
      (fun a b => ChartView.lexLe_total a.name b.name) all
  · exact List.mergeSort_perm all _
  · rw [← hplen]
    exact hfields.2.2.1
  · simp only []
    rw [hts]
    omega
  · exact hfields.2.1
  · have h40 := ChartView.record_bytes_length
      (all.mergeSort (fun a b => ChartView.lexLe a.name b.name))
    have hsortlen : (all.mergeSort
        (fun a b => ChartView.lexLe a.name b.name)).length = all.length :=
      (List.mergeSort_perm all _).length_eq
    have := hfields.2.2.2
    rw [hplen] at this
    rw [this, h40, hsortlen, hlen]
    simp [← hnum]

/-- Witness for C5: a single well-formed input containing one 1-byte record. -/
theorem chart_merge_invariants_witness :
    (∀ inp ∈ [(([65, 80, 95, 99, 104, 97, 114, 116, 115, 46, 98, 105, 110] : List Nat),
        ([0, 0, 0, 0, 27, 0, 0, 1, 1, 0, 0, 0, 28, 0, 0, 0, 0, 0, 0, 0, 0, 0, 0, 0, 0, 0, 0, 171, 65, 0, 0, 0, 0, 0, 0, 0, 0, 0, 0, 0, 0, 0, 0, 0, 0, 0, 0, 0, 0, 0, 0, 0, 0, 0, 27, 0, 0, 0, 1, 0, 0, 0, 0, 0, 0, 0, 0, 0] : List Nat))], ChartView.WellFormedInput inp) ∧
      (∃ out hdr all sorted,
        ChartView.process_charts_bin [(([65, 80, 95, 99, 104, 97, 114, 116, 115, 46, 98, 105, 110] : List Nat),
            ([0, 0, 0, 0, 27, 0, 0, 1, 1, 0, 0, 0, 28, 0, 0, 0, 0, 0, 0, 0, 0, 0, 0, 0, 0, 0, 0, 171, 65, 0, 0, 0, 0, 0, 0, 0, 0, 0, 0, 0, 0, 0, 0, 0, 0, 0, 0, 0, 0, 0, 0, 0, 0, 0, 27, 0, 0, 0, 1, 0, 0, 0, 0, 0, 0, 0, 0, 0] : List Nat))] [] = some (out, hdr, all, sorted) ∧
          hdr.num_files = ([(([65, 80, 95, 99, 104, 97, 114, 116, 115, 46, 98, 105, 110] : List Nat),
            ([0, 0, 0, 0, 27, 0, 0, 1, 1, 0, 0, 0, 28, 0, 0, 0, 0, 0, 0, 0, 0, 0, 0, 0, 0, 0, 0, 171, 65, 0, 0, 0, 0, 0, 0, 0, 0, 0, 0, 0, 0, 0, 0, 0, 0, 0, 0, 0, 0, 0, 0, 0, 0, 0, 27, 0, 0, 0, 1, 0, 0, 0, 0, 0, 0, 0, 0, 0] : List Nat))].map ChartView.inputNumFiles).sum ∧
          Taws.fromLeBytes ((out.drop 8).take 4) = hdr.num_files % 0x100000000 ∧
          List.Pairwise (fun a b => ChartView.lexLe a.name b.name = true) sorted ∧
          sorted.Perm all ∧
          out.drop (ChartView.SIZE + ChartView.sizes_sum all) =
            (sorted.map ChartView.ChartRecord.to_bytes).flatten ∧
          ChartView.contiguousFrom ChartView.SIZE all ∧
          hdr.index_offset = ChartView.SIZE + ChartView.sizes_sum all ∧
          Taws.fromLeBytes ((out.drop 12).take 4) =
            hdr.index_offset % 0x100000000 ∧
          out.length = ChartView.SIZE + ChartView.sizes_sum all +
            40 * hdr.num_files) :=
  have hwf : ∀ inp ∈ [(([65, 80, 95, 99, 104, 97, 114, 116, 115, 46, 98, 105, 110] : List Nat),
      ([0, 0, 0, 0, 27, 0, 0, 1, 1, 0, 0, 0, 28, 0, 0, 0, 0, 0, 0, 0, 0, 0, 0, 0, 0, 0, 0, 171, 65, 0, 0, 0, 0, 0, 0, 0, 0, 0, 0, 0, 0, 0, 0, 0, 0, 0, 0, 0, 0, 0, 0, 0, 0, 0, 27, 0, 0, 0, 1, 0, 0, 0, 0, 0, 0, 0, 0, 0] : List Nat))], ChartView.WellFormedInput inp := by
    intro inp hin
    rw [List.mem_singleton] at hin
    subst hin
    exact ⟨⟨0, 1, 28, []⟩, [⟨[65], 27, 1, [0, 0, 0, 0, 0, 0]⟩],
      by decide, by decide, by decide, by decide, by decide⟩
  ⟨hwf, chart_merge_invariants _ [] hwf⟩
